import Mathlib

/-!
# Portfolio: the image crop-and-upload pipeline

A shallow embedding of `src/Components/ImageUpload/index.jsx`,
`src/Components/ImageCropper/index.jsx` and the URL helpers of
`src/services/api.jsx`.

Conventions of the embedding.

* JavaScript strings are Lean strings; `startsWith` compares character lists.
* Byte counts (`file.size`, `maxSize`) are natural numbers.
* React state is a record; a handler is a function from the state it runs in
  to the state after all of its `setX` calls, together with the list of
  outward effects it performed, in program order.
* Values that may be `null`, a string or a `{url, alt}` object are `ImageValue`.
* An asynchronous handler is cut at its `await`s; the `FileReader` load
  event of the local preview is delivered between the synchronous head of a
  handler and the settling of its upload.
-/

namespace Portfolio

/-! ## Strings -/

/-- JavaScript `s.startsWith(p)`. -/
def startsWith (s p : String) : Bool :=
  p.data.isPrefixOf s.data

/-- JavaScript truthiness of a string: only the empty string is falsy. -/
def truthy (s : String) : Bool :=
  s != ""

/-- `Math.round(n / d)` for non-negative integers `n` and a positive integer
`d`: the nearest integer, a half rounded upwards. -/
def mathRoundDiv (n d : Nat) : Nat :=
  (2 * n + d) / (2 * d)

/-! ## Data model -/

/-- The fields of a browser `File` that the component reads. -/
structure File where
  name : String
  type : String
  size : Nat
  deriving DecidableEq, Repr

/-- A `blob:` URL handed out by `URL.createObjectURL`. Such a URL is never
the empty string, so it is always truthy. -/
structure ObjectUrl where
  id : Nat
  deriving DecidableEq, Repr

/-- The dynamically typed image values of the component: `null`, a string, or
an object `{url, alt}`. Used for the `currentImage` prop, for the `preview`
state and for the argument of `onImageSelect`. -/
inductive ImageValue where
  | null : ImageValue
  | str (s : String) : ImageValue
  | obj (url alt : String) : ImageValue
  deriving DecidableEq, Repr

/-- The props of `ImageUpload` that its handlers read. -/
structure Props where
  currentImage : ImageValue
  maxSize : Nat
  enableCropping : Bool
  deriving DecidableEq, Repr

/-- The `useState` cells of `ImageUpload`. -/
structure State where
  isDragOver : Bool
  preview : ImageValue
  error : String
  uploading : Bool
  showCropper : Bool
  selectedFile : Option File
  tempImageUrl : Option ObjectUrl
  deriving DecidableEq, Repr

/-- Outward effects of the handlers. -/
inductive Effect where
  | createObjectURL (file : File) (url : ObjectUrl) : Effect
  | revokeObjectURL (url : ObjectUrl) : Effect
  | readAsDataURL (file : File) : Effect
  | uploadImage (file : File) : Effect
  | onImageSelect (value : ImageValue) : Effect
  deriving DecidableEq, Repr

/-- The parsed JSON body that `uploadAPI.uploadImage` resolves with. -/
structure UploadResponse where
  status : String
  imageUrl : String
  message : Option String
  deriving DecidableEq, Repr

/-- How the promise returned by `uploadAPI.uploadImage` settles. -/
inductive UploadOutcome where
  | resolved (result : UploadResponse) : UploadOutcome
  | rejected (message : String) : UploadOutcome
  deriving DecidableEq, Repr

/-! ## `services/api.jsx` -/

/-- The default of `SERVER_BASE_URL`. -/
def defaultServerBaseUrl : String :=
  "http://localhost:5001"

/-- `formatImageUrl`, with `SERVER_BASE_URL` as the parameter `base`. -/
def formatImageUrl (base imageUrl : String) : String :=
  if !truthy imageUrl then ""
  else if startsWith imageUrl "http" then imageUrl
  else if startsWith imageUrl "/" then base ++ imageUrl
  else base ++ "/" ++ imageUrl

/-! ## `Components/ImageUpload/index.jsx` -/

/-- The initial value of the `preview` state cell. -/
def initialPreview (base : String) (currentImage : ImageValue) : ImageValue :=
  match currentImage with
  | .obj url _ => if truthy url then .str (formatImageUrl base url) else .null
  | .str s => if truthy s then .str (formatImageUrl base s) else .null
  | .null => .null

/-- The state of a freshly mounted `ImageUpload`. -/
def initialState (base : String) (p : Props) : State :=
  { isDragOver := false
    preview := initialPreview base p.currentImage
    error := ""
    uploading := false
    showCropper := false
    selectedFile := none
    tempImageUrl := none }

/-- The text of the size error: the template literal of `validateFile`.
Dividing a whole number of bytes by `1024 * 1024` is exact in binary floating
point, so `Math.round` sees the exact quotient, and a whole number prints in
plain decimal digits. -/
def sizeErrorMessage (maxSize : Nat) : String :=
  "File size must be less than " ++ toString (mathRoundDiv maxSize (1024 * 1024)) ++ "MB"

/-- `validateFile`: the returned boolean and the state after its `setError`. -/
def validateFile (p : Props) (file : File) (s : State) : Bool × State :=
  if !startsWith file.type "image/" then
    (false, { s with error := "Please select an image file" })
  else if file.size > p.maxSize then
    (false, { s with error := sizeErrorMessage p.maxSize })
  else
    (true, { s with error := "" })

/-- `prepareImageForCropping`; `imageUrl` is the URL that `URL.createObjectURL`
hands out for the file. -/
def prepareImageForCropping (p : Props) (imageUrl : ObjectUrl) (file : File) (s : State) :
    State × List Effect :=
  let v := validateFile p file s
  if !v.1 then (v.2, [])
  else
    ({ v.2 with tempImageUrl := some imageUrl, selectedFile := some file, showCropper := true },
      [Effect.createObjectURL file imageUrl])

/-- `file.name.split('.')[0]`: the file name up to its first dot. -/
def altText (name : String) : String :=
  String.mk (name.data.takeWhile (fun c => c != '.'))

/-- The value handed to `onImageSelect` after a successful upload. -/
def selectedValue (currentImage : ImageValue) (imageUrl fileName : String) : ImageValue :=
  match currentImage with
  | .str _ => .str imageUrl
  | _ => .obj imageUrl (altText fileName)

/-- `result.message || 'Upload failed'`. -/
def failureMessage (message : Option String) : String :=
  match message with
  | some m => if truthy m then m else "Upload failed"
  | none => "Upload failed"

/-- `currentImage?.url || currentImage`: the value the `catch` blocks put back
into `preview`. -/
def restoredPreview (currentImage : ImageValue) : ImageValue :=
  match currentImage with
  | .obj url alt => if truthy url then .str url else .obj url alt
  | .str s => .str s
  | .null => .null

/-- The `reader.onload` callback: the locally decoded data URL becomes the
preview. -/
def readerOnload (dataUrl : String) (s : State) : State :=
  { s with preview := .str dataUrl }

/-- The body of the `try` blocks from the `await uploadAPI.uploadImage(file)`
onwards: either the block completes, or it throws an error with the given
message. The effects performed are returned in both cases. -/
def uploadTry (base : String) (p : Props) (file : File) (outcome : UploadOutcome) (s : State) :
    Except String State × List Effect :=
  match outcome with
  | .rejected message => (.error message, [Effect.uploadImage file])
  | .resolved result =>
    if result.status = "success" then
      (.ok { s with preview := .str (formatImageUrl base result.imageUrl) },
        [Effect.uploadImage file,
          Effect.onImageSelect (selectedValue p.currentImage result.imageUrl file.name)])
    else
      (.error (failureMessage result.message), [Effect.uploadImage file])

/-- The `catch` blocks: `setError('Upload failed: ' + error.message)` and
`setPreview(currentImage?.url || currentImage)`. -/
def uploadCatch (p : Props) (message : String) (s : State) : State :=
  { s with error := "Upload failed: " ++ message, preview := restoredPreview p.currentImage }

/-- The `try`/`catch` of both upload paths, from the upload call onwards. -/
def uploadTryCatch (base : String) (p : Props) (file : File) (outcome : UploadOutcome)
    (s : State) : State × List Effect :=
  match uploadTry base p file outcome s with
  | (.ok s1, effects) => (s1, effects)
  | (.error message, effects) => (uploadCatch p message s, effects)

/-- The synchronous head of `handleCropComplete`, up to the first `await`. -/
def handleCropCompleteStart (croppedFile : File) (s : State) : State × List Effect :=
  ({ s with showCropper := false, uploading := true }, [Effect.readAsDataURL croppedFile])

/-- The `finally` block of `handleCropComplete`. `tempImageUrl` is the value
captured by the closure when the handler was created. -/
def handleCropCompleteFinally (tempImageUrl : Option ObjectUrl) (s : State) :
    State × List Effect :=
  let s1 := { s with uploading := false }
  match tempImageUrl with
  | some u => ({ s1 with tempImageUrl := none }, [Effect.revokeObjectURL u])
  | none => (s1, [])

/-- The part of `handleCropComplete` that runs once the upload has settled:
the rest of the `try`, the `catch` and the `finally`. -/
def handleCropCompleteSettle (base : String) (p : Props) (tempImageUrl : Option ObjectUrl)
    (croppedFile : File) (outcome : UploadOutcome) (s : State) : State × List Effect :=
  let r := uploadTryCatch base p croppedFile outcome s
  let f := handleCropCompleteFinally tempImageUrl r.1
  (f.1, r.2 ++ f.2)

/-- Delivery of the `FileReader` load event, if the read succeeds
(`readerResult` is the data URL). It is delivered while the handler awaits,
before the upload settles. -/
def deliverReader (readerResult : Option String) (s : State) : State :=
  match readerResult with
  | some dataUrl => readerOnload dataUrl s
  | none => s

/-- `handleCropComplete(croppedFile, isOriginal)` run in state `s`, whose
`tempImageUrl` the closure has captured. -/
def handleCropComplete (base : String) (p : Props) (croppedFile : File) (isOriginal : Bool)
    (readerResult : Option String) (outcome : UploadOutcome) (s : State) :
    State × List Effect :=
  let _logOnly := isOriginal && s.tempImageUrl.isSome
  let a := handleCropCompleteStart croppedFile s
  let b := deliverReader readerResult a.1
  let c := handleCropCompleteSettle base p s.tempImageUrl croppedFile outcome b
  (c.1, a.2 ++ c.2)

/-- `handleCropCancel`. -/
def handleCropCancel (s : State) : State × List Effect :=
  let s1 := { s with showCropper := false }
  match s.tempImageUrl with
  | some u => ({ s1 with tempImageUrl := none, selectedFile := none }, [Effect.revokeObjectURL u])
  | none => ({ s1 with selectedFile := none }, [])

/-- `handleFileSelect(file)`. `imageUrl` is the object URL the browser would
hand out, `readerResult` and `outcome` are what the file read and the upload
produce on the direct path. -/
def handleFileSelect (base : String) (p : Props) (imageUrl : ObjectUrl) (file : File)
    (readerResult : Option String) (outcome : UploadOutcome) (s : State) :
    State × List Effect :=
  let v := validateFile p file s
  if !v.1 then (v.2, [])
  else if p.enableCropping then prepareImageForCropping p imageUrl file v.2
  else
    let s1 := { v.2 with uploading := true }
    let s2 := deliverReader readerResult s1
    let r := uploadTryCatch base p file outcome s2
    ({ r.1 with uploading := false }, Effect.readAsDataURL file :: r.2)

/-- `handleRemoveImage` (the file input reset is not part of the state). -/
def handleRemoveImage (p : Props) (s : State) : State × List Effect :=
  ({ s with preview := .null },
    [Effect.onImageSelect
      (match p.currentImage with
        | .str _ => .str ""
        | _ => .obj "" "")])

/-- The revocations among a list of effects, in order. -/
def revocations (effects : List Effect) : List ObjectUrl :=
  effects.filterMap (fun e => match e with
    | .revokeObjectURL u => some u
    | _ => none)

/-- The values passed to `onImageSelect` among a list of effects, in order. -/
def selections (effects : List Effect) : List ImageValue :=
  effects.filterMap (fun e => match e with
    | .onImageSelect v => some v
    | _ => none)

/-- The files handed to `uploadAPI.uploadImage` among a list of effects. -/
def uploads (effects : List Effect) : List File :=
  effects.filterMap (fun e => match e with
    | .uploadImage f => some f
    | _ => none)

/-- The object URLs created among a list of effects. -/
def creations (effects : List Effect) : List ObjectUrl :=
  effects.filterMap (fun e => match e with
    | .createObjectURL _ u => some u
    | _ => none)

/-- The condition under which the cropper modal is rendered:
`showCropper && tempImageUrl`. -/
def cropperVisible (s : State) : Bool :=
  s.showCropper && s.tempImageUrl.isSome

/-- The limit in megabytes as the specification words it:
`maxSize / (1024*1024)`, an exact quotient. -/
def limitInMegabytes (maxSize : Nat) : ℚ :=
  (maxSize : ℚ) / (1024 * 1024)

/-- A transport failure as the specification words it: `uploadImage` rejects,
or resolves with a status other than `'success'`. -/
def transportFailed (outcome : UploadOutcome) : Bool :=
  match outcome with
  | .rejected _ => true
  | .resolved result => result.status != "success"

/-- The message of the error that reaches the `catch` block when the
transport fails: the rejection's message, or `result.message || 'Upload failed'`
of a non-success result. -/
def thrownMessage (outcome : UploadOutcome) : String :=
  match outcome with
  | .rejected message => message
  | .resolved result => failureMessage result.message

/-! ## `Components/ImageCropper/index.jsx`

Numbers are rationals: the arithmetic of the crop geometry is exact. -/

/-- The `unit` field of a crop: `'px'` or `'%'`. -/
inductive CropUnit where
  | px : CropUnit
  | percent : CropUnit
  deriving DecidableEq, Repr

/-- A crop rectangle with all four numbers present. -/
structure Crop where
  unit : CropUnit
  x : ℚ
  y : ℚ
  width : ℚ
  height : ℚ
  deriving DecidableEq, Repr

/-- A crop literal in which numbers may be left out, as in
`{ unit: '%', width: 90 }`. -/
structure PartialCrop where
  unit : CropUnit
  x : Option ℚ
  y : Option ℚ
  width : Option ℚ
  height : Option ℚ
  deriving DecidableEq, Repr

/-- A complete crop seen as a crop literal. -/
def Crop.toPartial (c : Crop) : PartialCrop :=
  { unit := c.unit, x := some c.x, y := some c.y, width := some c.width, height := some c.height }

/-- Truthiness of an optional number: present and not zero. -/
def numberGiven (v : Option ℚ) : Bool :=
  match v with
  | some a => a != 0
  | none => false

/-- Modelled from the spec: `convertToPixelCrop` of the `react-image-crop`
package, which `makeAspectCrop` and `centerCrop` rely on and which is not among
the repository sources. The data model asks for conversion between percentage
and pixel units: a percentage is taken of the container's width (for `x`,
`width`) or height (for `y`, `height`); a number left out counts as 0. -/
def convertToPixelCrop (crop : PartialCrop) (containerWidth containerHeight : ℚ) : Crop :=
  match crop.unit with
  | .px =>
    { unit := .px, x := crop.x.getD 0, y := crop.y.getD 0,
      width := crop.width.getD 0, height := crop.height.getD 0 }
  | .percent =>
    { unit := .px
      x := crop.x.getD 0 * (containerWidth / 100)
      y := crop.y.getD 0 * (containerHeight / 100)
      width := crop.width.getD 0 * (containerWidth / 100)
      height := crop.height.getD 0 * (containerHeight / 100) }

/-- Modelled from the spec: `convertToPercentCrop` of the `react-image-crop`
package (not among the repository sources), the inverse unit conversion: a
pixel length becomes its percentage of the container's width or height. -/
def convertToPercentCrop (crop : Crop) (containerWidth containerHeight : ℚ) : Crop :=
  match crop.unit with
  | .percent => crop
  | .px =>
    { unit := .percent
      x := crop.x / containerWidth * 100
      y := crop.y / containerHeight * 100
      width := crop.width / containerWidth * 100
      height := crop.height / containerHeight * 100 }

/-- Modelled from the spec: `makeAspectCrop` of the `react-image-crop` package,
which is not among the repository sources. Spec 4.1: the region is sized from
the given width (90% of the image width in `onImageLoad`), its height is
derived from the aspect ratio, and it is then scaled to fit, so that it lies
inside the image bounds: a region too high gets the full remaining height and
the width the ratio gives for it, a region too wide the full remaining width
and the height the ratio gives for it. The result is in the unit of the
argument. -/
def makeAspectCrop (crop : PartialCrop) (aspect containerWidth containerHeight : ℚ) : Crop :=
  let c0 := convertToPixelCrop crop containerWidth containerHeight
  let c1 := if numberGiven crop.width then { c0 with height := c0.width / aspect } else c0
  let c2 := if numberGiven crop.height then { c1 with width := c1.height * aspect } else c1
  let c3 :=
    if c2.y + c2.height > containerHeight then
      { c2 with height := containerHeight - c2.y, width := (containerHeight - c2.y) * aspect }
    else c2
  let c4 :=
    if c3.x + c3.width > containerWidth then
      { c3 with width := containerWidth - c3.x, height := (containerWidth - c3.x) / aspect }
    else c3
  match crop.unit with
  | .percent => convertToPercentCrop c4 containerWidth containerHeight
  | .px => c4

/-- Modelled from the spec: `centerCrop` of the `react-image-crop` package,
which is not among the repository sources. Spec 4.1: the region keeps its size
and is centered in the image, horizontally and vertically. The result is in
the unit of the argument. -/
def centerCrop (crop : Crop) (containerWidth containerHeight : ℚ) : Crop :=
  let c0 := convertToPixelCrop crop.toPartial containerWidth containerHeight
  let c1 := { c0 with x := (containerWidth - c0.width) / 2, y := (containerHeight - c0.height) / 2 }
  match crop.unit with
  | .percent => convertToPercentCrop c1 containerWidth containerHeight
  | .px => c1

/-- The crop literal `{ unit: '%', width: 90 }` of `onImageLoad`. -/
def ninetyPercentWide : PartialCrop :=
  { unit := .percent, x := none, y := none, width := some 90, height := none }

/-- `onImageLoad`: the crop handed to `setCrop` for an image element of the
given `width` and `height`, under the `aspectRatio` prop. -/
def onImageLoad (aspectRatio width height : ℚ) : Crop :=
  centerCrop (makeAspectCrop ninetyPercentWide aspectRatio width height) width height

/-- The initial crop of `onImageLoad` in pixels of the image element. -/
def onImageLoadPixels (aspectRatio width height : ℚ) : Crop :=
  convertToPixelCrop (onImageLoad aspectRatio width height).toPartial width height

/-- The props of `ImageCropper` that bear on the crop geometry. -/
structure CropperProps where
  aspectRatio : ℚ
  minWidth : ℚ
  minHeight : ℚ
  deriving DecidableEq, Repr

/-- The default props: `aspectRatio = 1`, `minWidth = 200`, `minHeight = 200`. -/
def defaultCropperProps : CropperProps :=
  { aspectRatio := 1, minWidth := 200, minHeight := 200 }

/-- The initial crop, in pixels, that `onImageLoad` computes inside an
`ImageCropper` with the given props: of the props only `aspectRatio` is read,
`minWidth` and `minHeight` are handed to `ReactCrop` alone. -/
def initialCropPixels (props : CropperProps) (width height : ℚ) : Crop :=
  onImageLoadPixels props.aspectRatio width height

/-- The fields of the `<img>` element that the extraction effect reads: the
displayed size and the natural size. -/
structure ImageElement where
  width : ℚ
  height : ℚ
  naturalWidth : ℚ
  naturalHeight : ℚ
  deriving DecidableEq, Repr

/-- What the extraction effect does to the canvas: the numbers it assigns to
`canvas.width` and `canvas.height`, the factor of `ctx.scale`, and the source
and destination rectangles of `ctx.drawImage`. -/
structure Extraction where
  canvasWidth : ℚ
  canvasHeight : ℚ
  scale : ℚ
  sx : ℚ
  sy : ℚ
  sWidth : ℚ
  sHeight : ℚ
  dx : ℚ
  dy : ℚ
  dWidth : ℚ
  dHeight : ℚ
  deriving DecidableEq, Repr

/-- The body of the extraction effect (`useEffect` on `completedCrop`) once
its guard has passed; `pixelRatio` is `window.devicePixelRatio`. The products
and the quotients are exact here; `extractDouble` rounds them as the code
does. -/
def extract (image : ImageElement) (pixelRatio : ℚ) (crop : Crop) : Extraction :=
  let scaleX := image.naturalWidth / image.width
  let scaleY := image.naturalHeight / image.height
  let cropX := crop.x * scaleX
  let cropY := crop.y * scaleY
  let cropWidth := crop.width * scaleX
  let cropHeight := crop.height * scaleY
  { canvasWidth := crop.width * scaleX * pixelRatio
    canvasHeight := crop.height * scaleY * pixelRatio
    scale := pixelRatio
    sx := cropX, sy := cropY, sWidth := cropWidth, sHeight := cropHeight
    dx := 0, dy := 0, dWidth := cropWidth, dHeight := cropHeight }

/-- The extraction effect with its guard
`!completedCrop || !imageRef.current || !canvasRef.current`: nothing is done
when the crop, the image or the canvas is missing. -/
def extractionEffect (completedCrop : Option Crop) (image : Option ImageElement)
    (canvasMounted : Bool) (pixelRatio : ℚ) : Option Extraction :=
  match completedCrop, image, canvasMounted with
  | some crop, some img, true => some (extract img pixelRatio crop)
  | _, _, _ => none

/-- The conversion of a number to `unsigned long` that an assignment to
`canvas.width` or `canvas.height` performs: the fractional part is dropped
(towards zero) and the result is taken modulo `2^32`. For `0 <= v < 2^31` this
is the whole number the canvas keeps. -/
def toUnsignedLong (v : ℚ) : ℤ :=
  (if 0 ≤ v then ⌊v⌋ else ⌈v⌉) % 2 ^ 32

/-- `Math.round(v)`: the nearest whole number, a half rounded upwards. -/
def mathRound (v : ℚ) : ℤ :=
  ⌊v + 1 / 2⌋

/-- What `handleApplyCrop` does that can be observed from outside. -/
inductive CropperEffect where
  | toBlob : CropperEffect
  | consoleError (message : String) : CropperEffect
  | onCropComplete (file : File) (isOriginal : Bool) : CropperEffect
  | onCancel : CropperEffect
  deriving DecidableEq, Repr

/-- `handleApplyCrop`: `blobSize` is the size of the blob that `toBlob` calls
back with, `none` when it calls back with `null`. -/
def handleApplyCrop (completedCrop : Option Crop) (canvasMounted : Bool)
    (blobSize : Option Nat) : List CropperEffect :=
  match completedCrop, canvasMounted with
  | some _, true =>
    match blobSize with
    | none => [.toBlob, .consoleError "Canvas is empty"]
    | some size =>
      [.toBlob, .onCropComplete { name := "cropped-image.png", type := "image/png", size := size }
        false]
  | _, _ => []

/-- The calls by which `ImageCropper` notifies the upload flow:
`onCropComplete` and `onCancel`. A console message is not one of them. -/
def flowNotifications (effects : List CropperEffect) : List CropperEffect :=
  effects.filter (fun e => match e with
    | .onCropComplete _ _ => true
    | .onCancel => true
    | _ => false)

/-! ## `services/api.jsx`, continued -/

/-- `formatFileUrl`, with `SERVER_BASE_URL` as the parameter `base`. -/
def formatFileUrl (base fileUrl : String) : String :=
  if !truthy fileUrl then ""
  else if startsWith fileUrl "http" then fileUrl
  else if startsWith fileUrl "/" then base ++ fileUrl
  else base ++ "/" ++ fileUrl

/-- An absolute URL as the specification words it: a string with an `http://`
or `https://` scheme, in any letter case. -/
def isHttpUrl (u : String) : Bool :=
  "http://".data.isPrefixOf (u.data.map Char.toLower) ||
    "https://".data.isPrefixOf (u.data.map Char.toLower)

/-- A `fetch` response whose body parses as a JSON object: its `ok` flag and
the parsed body. -/
structure HttpResponse where
  ok : Bool
  data : UploadResponse
  deriving DecidableEq, Repr

/-- `handleResponse`: the parsed body, or the message of the `Error` thrown. -/
def handleResponse (response : HttpResponse) : Except String UploadResponse :=
  if !response.ok then
    .error (match response.data.message with
      | some m => if truthy m then m else "Something went wrong"
      | none => "Something went wrong")
  else
    .ok response.data

/-- `uploadAPI.uploadImage`: `fetchResult` is how `fetch` settles, a network
failure being a rejection with a message. The `catch` logs and rethrows. -/
def uploadImage (fetchResult : Except String HttpResponse) : UploadOutcome :=
  match fetchResult with
  | .error message => .rejected message
  | .ok response =>
    match handleResponse response with
    | .ok data => .resolved data
    | .error message => .rejected message

/-- The "Use Full Image" button of `ImageCropper`: `blobSize` is the size of
the blob fetched from `imageSrc`, `none` when the fetch fails. The original
bytes go to `onCropComplete` as a file named `original-image.png`. -/
def useFullImage (blobSize : Option Nat) : List CropperEffect :=
  match blobSize with
  | some size =>
    [.onCropComplete { name := "original-image.png", type := "image/png", size := size } true]
  | none => []

/-- The validation gate as the specification words it: the type starts with
`image/` and the size is at most `maxSize`. -/
def passesGate (p : Props) (file : File) : Bool :=
  startsWith file.type "image/" && decide (file.size ≤ p.maxSize)

/-- The file name without its extension as the comment in the source words
it: the name with only its final `.ext` suffix removed, a name without a dot
left as it is. -/
def withoutExtension (name : String) : String :=
  if name.data.contains '.' then
    String.mk ((name.data.reverse.dropWhile (fun c => c != '.')).drop 1).reverse
  else name

/-- Whether `preview` can serve as the `src` of the preview image: it is
`null` or a string, not an object. -/
def usableAsSrc (preview : ImageValue) : Bool :=
  match preview with
  | .null => true
  | .str _ => true
  | .obj _ _ => false

/-! ## `Containers/Admin/ProjectsManager.jsx`: the `technologies` field -/

/-- JavaScript white space and line terminators, the characters that
`String.prototype.trim` removes. -/
def isJsWhitespace (c : Char) : Bool :=
  c.toNat == 9 || c.toNat == 10 || c.toNat == 11 || c.toNat == 12 || c.toNat == 13 ||
  c.toNat == 32 || c.toNat == 160 || c.toNat == 5760 ||
  (8192 ≤ c.toNat && c.toNat ≤ 8202) ||
  c.toNat == 8232 || c.toNat == 8233 || c.toNat == 8239 || c.toNat == 8287 ||
  c.toNat == 12288 || c.toNat == 65279

/-- `trim` on the characters of a string. -/
def trimChars (cs : List Char) : List Char :=
  ((cs.dropWhile isJsWhitespace).reverse.dropWhile isJsWhitespace).reverse

/-- JavaScript `s.trim()`. -/
def jsTrim (s : String) : String :=
  String.mk (trimChars s.data)

/-- `split(sep)` on the characters of a string, for a one-character separator:
the pieces between the separators, at least one piece. -/
def splitChars (sep : Char) : List Char → List (List Char)
  | [] => [[]]
  | c :: cs =>
    if c = sep then [] :: splitChars sep cs
    else
      match splitChars sep cs with
      | [] => [[c]]
      | piece :: pieces => (c :: piece) :: pieces

/-- JavaScript `s.split(',')`. -/
def jsSplitComma (s : String) : List String :=
  (splitChars ',' s.data).map String.mk

/-- `join(', ')` on character lists. -/
def joinChars : List (List Char) → List Char
  | [] => []
  | [a] => a
  | a :: b :: rest => a ++ ',' :: ' ' :: joinChars (b :: rest)

/-- JavaScript `list.join(', ')` for a list of strings. -/
def jsJoinCommaSpace (list : List String) : String :=
  String.mk (joinChars (list.map String.data))

/-- `handleEdit`, the `technologies` field of the form data it sets:
`project.technologies.join(', ')`. -/
def handleEditTechnologies (technologies : List String) : String :=
  jsJoinCommaSpace technologies

/-- `handleSubmit`, the `technologies` of the `projectData` it sends:
`formData.technologies.split(',').map(tech => tech.trim())`. -/
def handleSubmitTechnologies (formTechnologies : String) : List String :=
  (jsSplitComma formTechnologies).map jsTrim

/-! ## Double arithmetic

`ImageCropper` computes the extraction in JavaScript numbers, IEEE 754
doubles: every `*` and `/` yields the double nearest to the exact result.
Doubles are represented by the rationals they denote. -/

/-- Rounding to the nearest whole number, a tie going to the even one. -/
def roundHalfEven (x : ℚ) : ℤ :=
  if x - ⌊x⌋ < 1 / 2 then ⌊x⌋
  else if 1 / 2 < x - ⌊x⌋ then ⌊x⌋ + 1
  else if ⌊x⌋ % 2 = 0 then ⌊x⌋ else ⌊x⌋ + 1

/-- The spacing of the doubles at the magnitude of `q`: `2^(e - 52)` for
`2^e <= |q| < 2^(e + 1)`, and `2^(-1074)` below `2^(-1022)`. -/
def ulp (q : ℚ) : ℚ :=
  2 ^ (max (Int.log 2 |q|) (-1022) - 52)

/-- The double nearest to `q`, ties to even: the value of a JavaScript
arithmetic operation whose exact result is `q`. Results of magnitude `2^1024`
and more, which overflow to `Infinity`, are not modelled. -/
def toDouble (q : ℚ) : ℚ :=
  (roundHalfEven (q / ulp q) : ℚ) * ulp q

/-- The unit roundoff of double arithmetic, `2^(-53)`. -/
def unitRoundoff : ℚ :=
  1 / 2 ^ 53

/-- An exact result that neither underflows nor overflows: zero, or of
magnitude from `2^(-1022)` up to `2^1023`. -/
def inNormalRange (y : ℚ) : Prop :=
  y = 0 ∨ ((2 : ℚ) ^ (-1022 : ℤ) ≤ |y| ∧ |y| < (2 : ℚ) ^ (1023 : ℤ))

/-- The number `q` is a double: rounding leaves it as it is. -/
def isDouble (q : ℚ) : Prop :=
  toDouble q = q

/-- The body of the extraction effect in the double arithmetic of the code:
as `extract`, with every product and quotient rounded to a double. -/
def extractDouble (image : ImageElement) (pixelRatio : ℚ) (crop : Crop) : Extraction :=
  let scaleX := toDouble (image.naturalWidth / image.width)
  let scaleY := toDouble (image.naturalHeight / image.height)
  let cropX := toDouble (crop.x * scaleX)
  let cropY := toDouble (crop.y * scaleY)
  let cropWidth := toDouble (crop.width * scaleX)
  let cropHeight := toDouble (crop.height * scaleY)
  { canvasWidth := toDouble (toDouble (crop.width * scaleX) * pixelRatio)
    canvasHeight := toDouble (toDouble (crop.height * scaleY) * pixelRatio)
    scale := pixelRatio
    sx := cropX, sy := cropY, sWidth := cropWidth, sHeight := cropHeight
    dx := 0, dy := 0, dWidth := cropWidth, dHeight := cropHeight }

/-- The extraction effect in double arithmetic, with its guard. -/
def extractionEffectDouble (completedCrop : Option Crop) (image : Option ImageElement)
    (canvasMounted : Bool) (pixelRatio : ℚ) : Option Extraction :=
  match completedCrop, image, canvasMounted with
  | some crop, some img, true => some (extractDouble img pixelRatio crop)
  | _, _, _ => none

/-- No product or quotient formed on the way to the source rectangle
underflows or overflows. -/
def sourceInRange (image : ImageElement) (crop : Crop) : Prop :=
  inNormalRange (image.naturalWidth / image.width) ∧
  inNormalRange (image.naturalHeight / image.height) ∧
  inNormalRange (crop.x * toDouble (image.naturalWidth / image.width)) ∧
  inNormalRange (crop.y * toDouble (image.naturalHeight / image.height)) ∧
  inNormalRange (crop.width * toDouble (image.naturalWidth / image.width)) ∧
  inNormalRange (crop.height * toDouble (image.naturalHeight / image.height))

/-- The image is displayed at its natural size. -/
def atNaturalSize (image : ImageElement) : Prop :=
  image.width = image.naturalWidth ∧ image.height = image.naturalHeight

/-- The form of `ProjectsManager`, whose `onSubmit` is `handleSubmit`: the
`technologies` input is `required`, as are other inputs, so the browser fires
the submit event only when none of them is empty. The result is the
`technologies` that `handleSubmit` then sends, `none` when the submit is
stopped; `othersFilled` says that the other required inputs are filled. -/
def submitTechnologies (othersFilled : Bool) (formTechnologies : String) :
    Option (List String) :=
  if othersFilled && truthy formTechnologies then
    some (handleSubmitTechnologies formTechnologies)
  else none

/-! ## Theorems -/

/-! ### Validation gate -/

theorem sizeErrorMessage_ne_empty (maxSize : Nat) : sizeErrorMessage maxSize ≠ "" := by
  intro h
  have h2 := congrArg String.length h
  simp [sizeErrorMessage, String.length_append] at h2
  exact absurd h2.2 (by decide)

/-- C1: `validateFile` returns `true` exactly when `file.type` starts with
`image/` and `file.size <= maxSize`. A `text/plain` file is rejected whatever
its size, an `image/png` file of size exactly `maxSize` is accepted, and one of
size `maxSize + 1` is rejected. -/
theorem validateFile_accepts_iff :
    (∀ (p : Props) (file : File) (s : State),
      (validateFile p file s).1 = true ↔
        (startsWith file.type "image/" = true ∧ file.size ≤ p.maxSize)) ∧
    (∀ (p : Props) (s : State) (name : String) (size : Nat),
      (validateFile p ⟨name, "text/plain", size⟩ s).1 = false) ∧
    (∀ (p : Props) (s : State) (name : String),
      (validateFile p ⟨name, "image/png", p.maxSize⟩ s).1 = true) ∧
    (∀ (p : Props) (s : State) (name : String),
      (validateFile p ⟨name, "image/png", p.maxSize + 1⟩ s).1 = false) := by
  have hpng : startsWith "image/png" "image/" = true := by decide
  have htxt : startsWith "text/plain" "image/" = false := by decide
  refine ⟨?_, ?_, ?_, ?_⟩
  · intro p file s
    unfold validateFile
    by_cases h1 : startsWith file.type "image/" = true
    · by_cases h2 : file.size > p.maxSize
      · simp [h1, h2]
      · simp [h1, h2]; omega
    · simp [h1]
  · intro p s name size
    simp [validateFile, htxt]
  · intro p s name
    simp [validateFile, hpng]
  · intro p s name
    simp [validateFile, hpng]

/-- C2, as stated, fails: with `maxSize` = 1.5 MB = 1572864 bytes an image of
1572865 bytes is rejected with the message `File size must be less than 2MB`,
while `maxSize / (1024*1024)` is 3/2, which no whole number `N` in the message
can state. -/
theorem validateFile_size_message_not_exact :
    startsWith "image/png" "image/" = true ∧
    (1572865 : Nat) > 1572864 ∧
    (validateFile ⟨.null, 1572864, true⟩ ⟨"a.png", "image/png", 1572865⟩
      (initialState defaultServerBaseUrl ⟨.null, 1572864, true⟩)).2.error
        = "File size must be less than 2MB" ∧
    limitInMegabytes 1572864 = 3 / 2 ∧
    ¬ ∃ N : Nat,
      (validateFile ⟨.null, 1572864, true⟩ ⟨"a.png", "image/png", 1572865⟩
        (initialState defaultServerBaseUrl ⟨.null, 1572864, true⟩)).2.error
          = "File size must be less than " ++ toString N ++ "MB" ∧
      (N : ℚ) = limitInMegabytes 1572864 := by
  have hl : limitInMegabytes 1572864 = 3 / 2 := by
    unfold limitInMegabytes; norm_num
  refine ⟨by decide, by decide, by decide, hl, ?_⟩
  rintro ⟨N, -, hN⟩
  rw [hl] at hN
  have h2 : (2 * N : ℚ) = 3 := by rw [hN]; norm_num
  have h3 : 2 * N = 3 := by exact_mod_cast h2
  omega

/-- C2, amended: for every `maxSize` and every image file with
`size > maxSize`, `validateFile` sets the error message to
`File size must be less than <N>MB` where `N` is `maxSize / (1024*1024)`
rounded to the nearest whole number, a half rounded up (`Math.round`); `N` is
`maxSize / (1024*1024)` itself when `maxSize` is a whole number of megabytes. -/
theorem validateFile_size_message_rounded (p : Props) (file : File) (s : State)
    (htype : startsWith file.type "image/" = true) (hsize : file.size > p.maxSize) :
    (validateFile p file s).2.error =
      "File size must be less than " ++ toString (mathRoundDiv p.maxSize (1024 * 1024)) ++ "MB" ∧
    limitInMegabytes p.maxSize - 1 / 2 < (mathRoundDiv p.maxSize (1024 * 1024) : ℚ) ∧
    (mathRoundDiv p.maxSize (1024 * 1024) : ℚ) ≤ limitInMegabytes p.maxSize + 1 / 2 ∧
    ((1024 * 1024) ∣ p.maxSize →
      (mathRoundDiv p.maxSize (1024 * 1024) : ℚ) = limitInMegabytes p.maxSize) := by
  have hlo : 2 * p.maxSize + 1024 * 1024 <
      2 * (mathRoundDiv p.maxSize (1024 * 1024) + 1) * (1024 * 1024) := by
    unfold mathRoundDiv; omega
  have hhi : 2 * mathRoundDiv p.maxSize (1024 * 1024) * (1024 * 1024) ≤
      2 * p.maxSize + 1024 * 1024 := by
    unfold mathRoundDiv; omega
  have hloq : (2 * (p.maxSize : ℚ) + 1024 * 1024) <
      2 * ((mathRoundDiv p.maxSize (1024 * 1024) : ℚ) + 1) * (1024 * 1024) := by
    exact_mod_cast hlo
  have hhiq : 2 * (mathRoundDiv p.maxSize (1024 * 1024) : ℚ) * (1024 * 1024) ≤
      2 * (p.maxSize : ℚ) + 1024 * 1024 := by
    exact_mod_cast hhi
  refine ⟨?_, ?_, ?_, ?_⟩
  · simp [validateFile, htype, hsize, sizeErrorMessage]
  · unfold limitInMegabytes
    rw [sub_lt_iff_lt_add, div_lt_iff₀ (by norm_num)]
    linarith
  · unfold limitInMegabytes
    rw [← sub_le_iff_le_add, le_div_iff₀ (by norm_num)]
    linarith
  · rintro ⟨k, hk⟩
    have hkq : (p.maxSize : ℚ) = 1024 * 1024 * (k : ℚ) := by exact_mod_cast hk
    have : mathRoundDiv p.maxSize (1024 * 1024) = k := by
      unfold mathRoundDiv; omega
    rw [this, limitInMegabytes, hkq]
    field_simp

/-- Witness of C2 (amended): the default limit of 15 MB and an image one byte
larger. -/
theorem validateFile_size_message_rounded_witness :
    (validateFile ⟨.null, 15 * 1024 * 1024, true⟩ ⟨"a.png", "image/png", 15 * 1024 * 1024 + 1⟩
      (initialState defaultServerBaseUrl ⟨.null, 15 * 1024 * 1024, true⟩)).2.error =
      "File size must be less than " ++
        toString (mathRoundDiv (15 * 1024 * 1024) (1024 * 1024)) ++ "MB" ∧
    limitInMegabytes (15 * 1024 * 1024) - 1 / 2 <
      (mathRoundDiv (15 * 1024 * 1024) (1024 * 1024) : ℚ) ∧
    (mathRoundDiv (15 * 1024 * 1024) (1024 * 1024) : ℚ) ≤
      limitInMegabytes (15 * 1024 * 1024) + 1 / 2 ∧
    ((1024 * 1024) ∣ (15 * 1024 * 1024) →
      (mathRoundDiv (15 * 1024 * 1024) (1024 * 1024) : ℚ) =
        limitInMegabytes (15 * 1024 * 1024)) :=
  validateFile_size_message_rounded ⟨.null, 15 * 1024 * 1024, true⟩
    ⟨"a.png", "image/png", 15 * 1024 * 1024 + 1⟩
    (initialState defaultServerBaseUrl ⟨.null, 15 * 1024 * 1024, true⟩) (by decide) (by decide)

/-- C3: `validateFile` is total on files with a string type and a numeric
size; it returns `false` exactly when the error message it sets is non-empty,
and `true` exactly when it sets the error message to the empty string. -/
theorem validateFile_ok_iff_error_empty (p : Props) (file : File) (s : State) :
    ((validateFile p file s).1 = false ↔ (validateFile p file s).2.error ≠ "") ∧
    ((validateFile p file s).1 = true ↔ (validateFile p file s).2.error = "") := by
  unfold validateFile
  split
  · simp
  · split
    · simp [sizeErrorMessage_ne_empty]
    · simp

/-! ### Upload coordinator -/

theorem uploadTryCatch_of_failed (base : String) (p : Props) (file : File)
    (outcome : UploadOutcome) (hfail : transportFailed outcome = true) (s : State) :
    uploadTryCatch base p file outcome s
      = (uploadCatch p (thrownMessage outcome) s, [Effect.uploadImage file]) := by
  cases outcome with
  | rejected m => simp [uploadTryCatch, uploadTry, thrownMessage]
  | resolved r =>
    have hs : ¬ r.status = "success" := by simpa [transportFailed] using hfail
    simp [uploadTryCatch, uploadTry, thrownMessage, hs]

theorem validateFile_error_of_reject (p : Props) (file : File) (s : State)
    (hinvalid : (validateFile p file s).1 = false) :
    (validateFile p file s).2.error ≠ "" := by
  unfold validateFile at hinvalid ⊢
  split
  · simp
  · split
    · simp [sizeErrorMessage_ne_empty]
    · rename_i h1 h2; simp [h1, h2] at hinvalid

theorem validateFile_state_of_accept (p : Props) (file : File) (s : State)
    (hvalid : (validateFile p file s).1 = true) :
    (validateFile p file s).2 = { s with error := "" } := by
  unfold validateFile at hvalid ⊢
  split
  · rename_i h; simp [h] at hvalid
  · split
    · rename_i h1 h2; simp [h1, h2] at hvalid
    · rfl

/-- C4 fails on the code: with `currentImage` the string `/uploads/a.png`, the
preview displayed before the flow is `http://localhost:5001/uploads/a.png`
(the initial state formats the URL), but after a rejected upload the `catch`
block puts the unformatted `/uploads/a.png` into the preview, on the direct
path and on the crop path alike. -/
theorem failed_upload_preview_not_restored :
    (initialState defaultServerBaseUrl ⟨.str "/uploads/a.png", 15 * 1024 * 1024, false⟩).preview
      = .str "http://localhost:5001/uploads/a.png" ∧
    (handleFileSelect defaultServerBaseUrl ⟨.str "/uploads/a.png", 15 * 1024 * 1024, false⟩
      ⟨0⟩ ⟨"b.png", "image/png", 1000⟩ (some "data:image/png;base64,AAAA")
      (.rejected "Network error")
      (initialState defaultServerBaseUrl
        ⟨.str "/uploads/a.png", 15 * 1024 * 1024, false⟩)).1.preview
      = .str "/uploads/a.png" ∧
    (handleCropComplete defaultServerBaseUrl ⟨.str "/uploads/a.png", 15 * 1024 * 1024, true⟩
      ⟨"cropped-image.png", "image/png", 900⟩ false (some "data:image/png;base64,AAAA")
      (.rejected "Network error")
      (handleFileSelect defaultServerBaseUrl ⟨.str "/uploads/a.png", 15 * 1024 * 1024, true⟩
        ⟨0⟩ ⟨"b.png", "image/png", 1000⟩ none (.rejected "")
        (initialState defaultServerBaseUrl
          ⟨.str "/uploads/a.png", 15 * 1024 * 1024, true⟩)).1).1.preview
      = .str "/uploads/a.png" ∧
    (ImageValue.str "/uploads/a.png" ≠ .str "http://localhost:5001/uploads/a.png") := by
  refine ⟨by decide, by decide, by decide, by decide⟩

/-- C5: a call of `handleCropComplete` made while a temporary object URL `u`
is held revokes exactly `u`, exactly once, and leaves `tempImageUrl` null,
however the upload settles. -/
theorem handleCropComplete_revokes_once (base : String) (p : Props) (croppedFile : File)
    (isOriginal : Bool) (readerResult : Option String) (outcome : UploadOutcome) (s : State)
    (u : ObjectUrl) (hheld : s.tempImageUrl = some u) :
    revocations
      (handleCropComplete base p croppedFile isOriginal readerResult outcome s).2 = [u] ∧
    (handleCropComplete base p croppedFile isOriginal readerResult outcome s).1.tempImageUrl
      = none := by
  cases outcome with
  | rejected message =>
    simp [handleCropComplete, handleCropCompleteStart, handleCropCompleteSettle,
      handleCropCompleteFinally, uploadTryCatch, uploadTry, revocations, hheld]
  | resolved result =>
    by_cases hs : result.status = "success"
    · simp [handleCropComplete, handleCropCompleteStart, handleCropCompleteSettle,
        handleCropCompleteFinally, uploadTryCatch, uploadTry, revocations, hheld, hs]
    · simp [handleCropComplete, handleCropCompleteStart, handleCropCompleteSettle,
        handleCropCompleteFinally, uploadTryCatch, uploadTry, revocations, hheld, hs]

/-- Witness of C5: a crop confirmed while `blob` URL 7 is held, the upload
rejecting. -/
theorem handleCropComplete_revokes_once_witness :
    revocations
      (handleCropComplete defaultServerBaseUrl ⟨.null, 15 * 1024 * 1024, true⟩
        ⟨"cropped-image.png", "image/png", 900⟩ false none (.rejected "Network error")
        ⟨false, .null, "", false, true, some ⟨"b.png", "image/png", 1000⟩, some ⟨7⟩⟩).2
      = [⟨7⟩] ∧
    (handleCropComplete defaultServerBaseUrl ⟨.null, 15 * 1024 * 1024, true⟩
        ⟨"cropped-image.png", "image/png", 900⟩ false none (.rejected "Network error")
        ⟨false, .null, "", false, true, some ⟨"b.png", "image/png", 1000⟩,
          some ⟨7⟩⟩).1.tempImageUrl
      = none :=
  handleCropComplete_revokes_once defaultServerBaseUrl ⟨.null, 15 * 1024 * 1024, true⟩
    ⟨"cropped-image.png", "image/png", 900⟩ false none (.rejected "Network error")
    ⟨false, .null, "", false, true, some ⟨"b.png", "image/png", 1000⟩, some ⟨7⟩⟩ ⟨7⟩ rfl

/-- C6: when `uploadImage` resolves with status `'success'` and `imageUrl` `u`,
the preview becomes `formatImageUrl(u)` and `onImageSelect` is called exactly
once, with the string `u` when `currentImage` is a string and with the object
`{url: u, alt}` otherwise (`currentImage` null included); on the crop path
(`handleCropComplete`) and on the direct path (`handleFileSelect` with cropping
disabled, for a file that passes validation). -/
theorem upload_success_commits (base : String) (p : Props) (file : File)
    (readerResult : Option String) (result : UploadResponse) (s : State)
    (hsuccess : result.status = "success") :
    (∀ isOriginal : Bool,
      (handleCropComplete base p file isOriginal readerResult (.resolved result) s).1.preview
        = .str (formatImageUrl base result.imageUrl) ∧
      ((∃ c, p.currentImage = .str c) →
        selections
          (handleCropComplete base p file isOriginal readerResult (.resolved result) s).2
          = [.str result.imageUrl]) ∧
      ((¬ ∃ c, p.currentImage = .str c) →
        selections
          (handleCropComplete base p file isOriginal readerResult (.resolved result) s).2
          = [.obj result.imageUrl (altText file.name)])) ∧
    (∀ imageUrl : ObjectUrl, p.enableCropping = false → (validateFile p file s).1 = true →
      (handleFileSelect base p imageUrl file readerResult (.resolved result) s).1.preview
        = .str (formatImageUrl base result.imageUrl) ∧
      ((∃ c, p.currentImage = .str c) →
        selections
          (handleFileSelect base p imageUrl file readerResult (.resolved result) s).2
          = [.str result.imageUrl]) ∧
      ((¬ ∃ c, p.currentImage = .str c) →
        selections
          (handleFileSelect base p imageUrl file readerResult (.resolved result) s).2
          = [.obj result.imageUrl (altText file.name)])) := by
  constructor
  · intro isOriginal
    refine ⟨?_, ?_, ?_⟩
    · cases h : s.tempImageUrl <;>
        simp [handleCropComplete, handleCropCompleteStart, handleCropCompleteSettle,
          handleCropCompleteFinally, uploadTryCatch, uploadTry, hsuccess, h]
    · rintro ⟨c, hc⟩
      cases h : s.tempImageUrl <;>
        simp [handleCropComplete, handleCropCompleteStart, handleCropCompleteSettle,
          handleCropCompleteFinally, uploadTryCatch, uploadTry, hsuccess, h, selections,
          selectedValue, hc]
    · intro hc
      cases hci : p.currentImage with
      | str c => exact absurd ⟨c, hci⟩ hc
      | null =>
        cases h : s.tempImageUrl <;>
          simp [handleCropComplete, handleCropCompleteStart, handleCropCompleteSettle,
            handleCropCompleteFinally, uploadTryCatch, uploadTry, hsuccess, h, selections,
            selectedValue, hci]
      | obj url alt =>
        cases h : s.tempImageUrl <;>
          simp [handleCropComplete, handleCropCompleteStart, handleCropCompleteSettle,
            handleCropCompleteFinally, uploadTryCatch, uploadTry, hsuccess, h, selections,
            selectedValue, hci]
  · intro imageUrl hcrop hvalid
    refine ⟨?_, ?_, ?_⟩
    · simp [handleFileSelect, hcrop, hvalid, uploadTryCatch, uploadTry, hsuccess]
    · rintro ⟨c, hc⟩
      simp [handleFileSelect, hcrop, hvalid, uploadTryCatch, uploadTry, hsuccess, selections,
        selectedValue, hc]
    · intro hc
      cases hci : p.currentImage with
      | str c => exact absurd ⟨c, hci⟩ hc
      | null =>
        simp [handleFileSelect, hcrop, hvalid, uploadTryCatch, uploadTry, hsuccess, selections,
          selectedValue, hci]
      | obj url alt =>
        simp [handleFileSelect, hcrop, hvalid, uploadTryCatch, uploadTry, hsuccess, selections,
          selectedValue, hci]

/-- Witness of C6: a confirmed crop whose upload succeeds, `currentImage` null. -/
theorem upload_success_commits_witness :
    ("success" = "success") ∧
    (handleCropComplete defaultServerBaseUrl ⟨.null, 15 * 1024 * 1024, true⟩
      ⟨"cropped-image.png", "image/png", 900⟩ false none
      (.resolved ⟨"success", "/uploads/n.png", none⟩)
      ⟨false, .null, "", false, true, some ⟨"b.png", "image/png", 1000⟩, some ⟨7⟩⟩).1.preview
      = .str (formatImageUrl defaultServerBaseUrl "/uploads/n.png") ∧
    selections
      (handleCropComplete defaultServerBaseUrl ⟨.null, 15 * 1024 * 1024, true⟩
        ⟨"cropped-image.png", "image/png", 900⟩ false none
        (.resolved ⟨"success", "/uploads/n.png", none⟩)
        ⟨false, .null, "", false, true, some ⟨"b.png", "image/png", 1000⟩, some ⟨7⟩⟩).2
      = [.obj "/uploads/n.png" (altText "cropped-image.png")] :=
  ⟨rfl,
    ((upload_success_commits defaultServerBaseUrl ⟨.null, 15 * 1024 * 1024, true⟩
      ⟨"cropped-image.png", "image/png", 900⟩ none ⟨"success", "/uploads/n.png", none⟩
      ⟨false, .null, "", false, true, some ⟨"b.png", "image/png", 1000⟩, some ⟨7⟩⟩
      rfl).1 false).1,
    ((upload_success_commits defaultServerBaseUrl ⟨.null, 15 * 1024 * 1024, true⟩
      ⟨"cropped-image.png", "image/png", 900⟩ none ⟨"success", "/uploads/n.png", none⟩
      ⟨false, .null, "", false, true, some ⟨"b.png", "image/png", 1000⟩, some ⟨7⟩⟩
      rfl).1 false).2.2 (by rintro ⟨c, hc⟩; cases hc)⟩

/-- C7: when the transport fails, the error state becomes `'Upload failed: '`
followed by the rejected error's message, or by `result.message` for a
non-success result, or by `'Upload failed'` when a non-success result carries
no (or an empty) message; `uploading` is false afterwards. On the crop path
the cropper is hidden afterwards; the direct path (cropping disabled, file
valid) never opens the cropper, so a hidden cropper stays hidden. -/
theorem transport_failure_surfaces_message (base : String) (p : Props) (file : File)
    (readerResult : Option String) (outcome : UploadOutcome) (s : State)
    (hfail : transportFailed outcome = true) :
    (∀ isOriginal : Bool,
      ((∀ m, outcome = .rejected m →
        (handleCropComplete base p file isOriginal readerResult outcome s).1.error
          = "Upload failed: " ++ m) ∧
      (∀ r m, outcome = .resolved r → r.message = some m → m ≠ "" →
        (handleCropComplete base p file isOriginal readerResult outcome s).1.error
          = "Upload failed: " ++ m) ∧
      (∀ r, outcome = .resolved r → (r.message = none ∨ r.message = some "") →
        (handleCropComplete base p file isOriginal readerResult outcome s).1.error
          = "Upload failed: Upload failed")) ∧
      (handleCropComplete base p file isOriginal readerResult outcome s).1.uploading = false ∧
      (handleCropComplete base p file isOriginal readerResult outcome s).1.showCropper = false ∧
      cropperVisible (handleCropComplete base p file isOriginal readerResult outcome s).1
        = false) ∧
    (∀ imageUrl : ObjectUrl, p.enableCropping = false → (validateFile p file s).1 = true →
      ((∀ m, outcome = .rejected m →
        (handleFileSelect base p imageUrl file readerResult outcome s).1.error
          = "Upload failed: " ++ m) ∧
      (∀ r m, outcome = .resolved r → r.message = some m → m ≠ "" →
        (handleFileSelect base p imageUrl file readerResult outcome s).1.error
          = "Upload failed: " ++ m) ∧
      (∀ r, outcome = .resolved r → (r.message = none ∨ r.message = some "") →
        (handleFileSelect base p imageUrl file readerResult outcome s).1.error
          = "Upload failed: Upload failed")) ∧
      (handleFileSelect base p imageUrl file readerResult outcome s).1.uploading = false ∧
      (cropperVisible s = false →
        cropperVisible (handleFileSelect base p imageUrl file readerResult outcome s).1
          = false)) := by
  have hcatch := uploadTryCatch_of_failed base p file outcome hfail
  constructor
  · intro isOriginal
    have hrun : (handleCropComplete base p file isOriginal readerResult outcome s).1 =
        (handleCropCompleteFinally s.tempImageUrl
          (uploadCatch p (thrownMessage outcome)
            (deliverReader readerResult (handleCropCompleteStart file s).1))).1 := by
      simp [handleCropComplete, handleCropCompleteSettle, hcatch]
    rw [hrun]
    refine ⟨⟨?_, ?_, ?_⟩, ?_, ?_, ?_⟩
    · rintro m rfl
      cases h : s.tempImageUrl <;> simp [handleCropCompleteFinally, uploadCatch, thrownMessage]
    · rintro r m rfl hm hne
      cases h : s.tempImageUrl <;>
        simp [handleCropCompleteFinally, uploadCatch, thrownMessage, failureMessage, hm, truthy,
          hne]
    · rintro r rfl hm
      rcases hm with hm | hm <;> cases h : s.tempImageUrl <;>
        simp [handleCropCompleteFinally, uploadCatch, thrownMessage, failureMessage, hm, truthy]
    · cases h : s.tempImageUrl <;> simp [handleCropCompleteFinally]
    · cases h : s.tempImageUrl <;> cases readerResult <;>
        simp [handleCropCompleteFinally, uploadCatch, deliverReader, readerOnload,
          handleCropCompleteStart]
    · cases h : s.tempImageUrl <;> cases readerResult <;>
        simp [handleCropCompleteFinally, uploadCatch, deliverReader, readerOnload,
          handleCropCompleteStart, cropperVisible]
  · intro imageUrl hcrop hvalid
    have hv2 := validateFile_state_of_accept p file s hvalid
    have hrun : (handleFileSelect base p imageUrl file readerResult outcome s).1 =
        { uploadCatch p (thrownMessage outcome)
            (deliverReader readerResult { (validateFile p file s).2 with uploading := true })
          with uploading := false } := by
      simp [handleFileSelect, hcrop, hvalid, hcatch]
    rw [hrun]
    refine ⟨⟨?_, ?_, ?_⟩, ?_, ?_⟩
    · rintro m rfl
      simp [uploadCatch, thrownMessage]
    · rintro r m rfl hm hne
      simp [uploadCatch, thrownMessage, failureMessage, hm, truthy, hne]
    · rintro r rfl hm
      rcases hm with hm | hm <;> simp [uploadCatch, thrownMessage, failureMessage, hm, truthy]
    · rfl
    · intro hvis
      rw [hv2]
      cases readerResult <;>
        simpa [uploadCatch, deliverReader, readerOnload, cropperVisible] using hvis

/-- Witness of C7: a rejected upload on the crop path and on the direct path. -/
theorem transport_failure_surfaces_message_witness :
    transportFailed (.rejected "Network error") = true ∧
    (handleCropComplete defaultServerBaseUrl ⟨.null, 15 * 1024 * 1024, true⟩
      ⟨"cropped-image.png", "image/png", 900⟩ false none (.rejected "Network error")
      ⟨false, .null, "", false, true, some ⟨"b.png", "image/png", 1000⟩, some ⟨7⟩⟩).1.error
      = "Upload failed: " ++ "Network error" ∧
    (handleCropComplete defaultServerBaseUrl ⟨.null, 15 * 1024 * 1024, true⟩
      ⟨"cropped-image.png", "image/png", 900⟩ false none (.rejected "Network error")
      ⟨false, .null, "", false, true, some ⟨"b.png", "image/png", 1000⟩, some ⟨7⟩⟩).1.uploading
      = false ∧
    cropperVisible
      (handleCropComplete defaultServerBaseUrl ⟨.null, 15 * 1024 * 1024, true⟩
        ⟨"cropped-image.png", "image/png", 900⟩ false none (.rejected "Network error")
        ⟨false, .null, "", false, true, some ⟨"b.png", "image/png", 1000⟩, some ⟨7⟩⟩).1
      = false :=
  ⟨rfl,
    ((transport_failure_surfaces_message defaultServerBaseUrl ⟨.null, 15 * 1024 * 1024, true⟩
      ⟨"cropped-image.png", "image/png", 900⟩ none (.rejected "Network error")
      ⟨false, .null, "", false, true, some ⟨"b.png", "image/png", 1000⟩, some ⟨7⟩⟩
      rfl).1 false).1.1 "Network error" rfl,
    ((transport_failure_surfaces_message defaultServerBaseUrl ⟨.null, 15 * 1024 * 1024, true⟩
      ⟨"cropped-image.png", "image/png", 900⟩ none (.rejected "Network error")
      ⟨false, .null, "", false, true, some ⟨"b.png", "image/png", 1000⟩, some ⟨7⟩⟩
      rfl).1 false).2.1,
    ((transport_failure_surfaces_message defaultServerBaseUrl ⟨.null, 15 * 1024 * 1024, true⟩
      ⟨"cropped-image.png", "image/png", 900⟩ none (.rejected "Network error")
      ⟨false, .null, "", false, true, some ⟨"b.png", "image/png", 1000⟩, some ⟨7⟩⟩
      rfl).1 false).2.2.2⟩

/-- C8: `handleCropCancel`, run in any state in which the cropper is open,
revokes the temporary object URL held there exactly once, sets `tempImageUrl`
to null, hides the cropper and clears `selectedFile`; it makes no upload call,
does not invoke `onImageSelect`, and leaves `preview`, `error` and `uploading`
unchanged. -/
theorem handleCropCancel_releases (s : State) (hopen : cropperVisible s = true) :
    (∃ u, s.tempImageUrl = some u ∧ revocations (handleCropCancel s).2 = [u]) ∧
    (handleCropCancel s).1.tempImageUrl = none ∧
    (handleCropCancel s).1.showCropper = false ∧
    cropperVisible (handleCropCancel s).1 = false ∧
    (handleCropCancel s).1.selectedFile = none ∧
    uploads (handleCropCancel s).2 = [] ∧
    selections (handleCropCancel s).2 = [] ∧
    (handleCropCancel s).1.preview = s.preview ∧
    (handleCropCancel s).1.error = s.error ∧
    (handleCropCancel s).1.uploading = s.uploading := by
  cases hheld : s.tempImageUrl with
  | none => simp [cropperVisible, hheld] at hopen
  | some u => simp [handleCropCancel, hheld, revocations, uploads, selections, cropperVisible]

/-- Witness of C8: cancelling while the cropper shows `blob` URL 7. -/
theorem handleCropCancel_releases_witness :
    cropperVisible
      ⟨false, .null, "", false, true, some ⟨"b.png", "image/png", 1000⟩, some ⟨7⟩⟩ = true ∧
    revocations
      (handleCropCancel
        ⟨false, .null, "", false, true, some ⟨"b.png", "image/png", 1000⟩, some ⟨7⟩⟩).2 = [⟨7⟩] ∧
    (handleCropCancel
      ⟨false, .null, "", false, true, some ⟨"b.png", "image/png", 1000⟩, some ⟨7⟩⟩).1.tempImageUrl
      = none ∧
    (handleCropCancel
      ⟨false, .null, "", false, true, some ⟨"b.png", "image/png", 1000⟩, some ⟨7⟩⟩).1.selectedFile
      = none :=
  ⟨rfl,
    by
      obtain ⟨u, hu, hrev⟩ := (handleCropCancel_releases
        ⟨false, .null, "", false, true, some ⟨"b.png", "image/png", 1000⟩, some ⟨7⟩⟩ rfl).1
      cases hu
      exact hrev,
    (handleCropCancel_releases
      ⟨false, .null, "", false, true, some ⟨"b.png", "image/png", 1000⟩, some ⟨7⟩⟩ rfl).2.1,
    (handleCropCancel_releases
      ⟨false, .null, "", false, true, some ⟨"b.png", "image/png", 1000⟩, some ⟨7⟩⟩
      rfl).2.2.2.2.1⟩

/-- C9: for a file that fails validation, `handleFileSelect` changes only the
error message (to a non-empty one) and performs no effect at all: no object
URL is created, no upload call is made, `onImageSelect` is not invoked, and
`preview`, `uploading`, `showCropper`, `selectedFile` and `tempImageUrl` are
unchanged. -/
theorem handleFileSelect_invalid_only_error (base : String) (p : Props) (imageUrl : ObjectUrl)
    (file : File) (readerResult : Option String) (outcome : UploadOutcome) (s : State)
    (hinvalid : (validateFile p file s).1 = false) :
    (handleFileSelect base p imageUrl file readerResult outcome s).1
      = { s with error := (validateFile p file s).2.error } ∧
    (validateFile p file s).2.error ≠ "" ∧
    (handleFileSelect base p imageUrl file readerResult outcome s).2 = [] ∧
    (handleFileSelect base p imageUrl file readerResult outcome s).1.preview = s.preview ∧
    (handleFileSelect base p imageUrl file readerResult outcome s).1.uploading = s.uploading ∧
    (handleFileSelect base p imageUrl file readerResult outcome s).1.showCropper
      = s.showCropper ∧
    (handleFileSelect base p imageUrl file readerResult outcome s).1.selectedFile
      = s.selectedFile ∧
    (handleFileSelect base p imageUrl file readerResult outcome s).1.tempImageUrl
      = s.tempImageUrl := by
  have hstate : (validateFile p file s).2 = { s with error := (validateFile p file s).2.error } := by
    unfold validateFile
    split
    · rfl
    · split <;> rfl
  have hrun : handleFileSelect base p imageUrl file readerResult outcome s
      = ((validateFile p file s).2, []) := by
    simp [handleFileSelect, hinvalid]
  refine ⟨?_, ?_, ?_, ?_, ?_, ?_, ?_, ?_⟩
  · rw [hrun]; exact hstate
  · exact validateFile_error_of_reject p file s hinvalid
  · rw [hrun]
  · rw [hrun, hstate]
  · rw [hrun, hstate]
  · rw [hrun, hstate]
  · rw [hrun, hstate]
  · rw [hrun, hstate]

/-- Witness of C9: a `text/plain` file dropped on a freshly mounted control. -/
theorem handleFileSelect_invalid_only_error_witness :
    (validateFile ⟨.null, 15 * 1024 * 1024, true⟩ ⟨"notes.txt", "text/plain", 10⟩
      (initialState defaultServerBaseUrl ⟨.null, 15 * 1024 * 1024, true⟩)).1 = false ∧
    (handleFileSelect defaultServerBaseUrl ⟨.null, 15 * 1024 * 1024, true⟩ ⟨0⟩
      ⟨"notes.txt", "text/plain", 10⟩ none (.rejected "")
      (initialState defaultServerBaseUrl ⟨.null, 15 * 1024 * 1024, true⟩)).2 = [] ∧
    (handleFileSelect defaultServerBaseUrl ⟨.null, 15 * 1024 * 1024, true⟩ ⟨0⟩
      ⟨"notes.txt", "text/plain", 10⟩ none (.rejected "")
      (initialState defaultServerBaseUrl ⟨.null, 15 * 1024 * 1024, true⟩)).1.tempImageUrl
      = (initialState defaultServerBaseUrl ⟨.null, 15 * 1024 * 1024, true⟩).tempImageUrl :=
  ⟨by decide,
    (handleFileSelect_invalid_only_error defaultServerBaseUrl ⟨.null, 15 * 1024 * 1024, true⟩ ⟨0⟩
      ⟨"notes.txt", "text/plain", 10⟩ none (.rejected "")
      (initialState defaultServerBaseUrl ⟨.null, 15 * 1024 * 1024, true⟩) (by decide)).2.2.1,
    (handleFileSelect_invalid_only_error defaultServerBaseUrl ⟨.null, 15 * 1024 * 1024, true⟩ ⟨0⟩
      ⟨"notes.txt", "text/plain", 10⟩ none (.rejected "")
      (initialState defaultServerBaseUrl ⟨.null, 15 * 1024 * 1024, true⟩)
      (by decide)).2.2.2.2.2.2.2⟩

/-! ### Crop geometry -/

/-- The pixel size of the initial crop: 90% of the width at the aspect ratio,
or the full height at the aspect ratio when that would be too high. -/
theorem makeAspectCrop_initial (a W H : ℚ) (ha : 0 < a) (hW : 0 < W) (hH : 0 < H) :
    makeAspectCrop ninetyPercentWide a W H =
    if 90 * (W / 100) / a > H then
      { unit := .percent, x := 0, y := 0, width := H * a / W * 100, height := 100 }
    else
      { unit := .percent, x := 0, y := 0, width := 90, height := 90 * (W / 100) / a / H * 100 } := by
  have hW0 : W ≠ 0 := ne_of_gt hW
  have hH0 : H ≠ 0 := ne_of_gt hH
  by_cases h : 90 * (W / 100) / a > H
  · have h2 : ¬ (H * a > W) := by
      rw [gt_iff_lt, lt_div_iff₀ ha] at h
      intro h3
      linarith
    simp [makeAspectCrop, ninetyPercentWide, convertToPixelCrop, convertToPercentCrop, numberGiven,
      h, h2, hH0]
  · have h2 : ¬ (90 * (W / 100) > W) := by
      intro h3; linarith
    simp [makeAspectCrop, ninetyPercentWide, convertToPixelCrop, convertToPercentCrop, numberGiven,
      h, h2]
    field_simp
    ring

/-- The initial aspect crop is a percent crop at the origin whose width and
height are positive and at most 100%. -/
theorem makeAspectCrop_initial_bounds (a W H : ℚ) (ha : 0 < a) (hW : 0 < W) (hH : 0 < H) :
    (makeAspectCrop ninetyPercentWide a W H).unit = .percent ∧
    0 < (makeAspectCrop ninetyPercentWide a W H).width ∧
    (makeAspectCrop ninetyPercentWide a W H).width ≤ 100 ∧
    0 < (makeAspectCrop ninetyPercentWide a W H).height ∧
    (makeAspectCrop ninetyPercentWide a W H).height ≤ 100 := by
  rw [makeAspectCrop_initial a W H ha hW hH]
  by_cases h : 90 * (W / 100) / a > H
  · have hlt : H * a < 90 * (W / 100) := by
      rw [gt_iff_lt, lt_div_iff₀ ha] at h
      exact h
    have hq : H * a / W ≤ 1 := by
      rw [div_le_one hW]; linarith
    have hq0 : 0 < H * a / W := by positivity
    rw [if_pos h]
    refine ⟨rfl, by linarith, by linarith, by norm_num, le_refl _⟩
  · have hle : 90 * (W / 100) / a ≤ H := not_lt.mp h
    have hq : 90 * (W / 100) / a / H ≤ 1 := by
      rw [div_le_one hH]; exact hle
    have hq0 : 0 < 90 * (W / 100) / a / H := by positivity
    rw [if_neg h]
    refine ⟨rfl, by norm_num, by norm_num, by linarith, by linarith⟩

/-- Centering a percent crop keeps its size and puts it in the middle. -/
theorem centerCrop_percent (c : Crop) (W H : ℚ) (hc : c.unit = .percent) (hW : W ≠ 0)
    (hH : H ≠ 0) :
    centerCrop c W H =
      { unit := .percent, x := (100 - c.width) / 2, y := (100 - c.height) / 2,
        width := c.width, height := c.height } := by
  cases c with
  | mk unit x y width height =>
    simp only at hc
    subst hc
    simp only [centerCrop, convertToPixelCrop, convertToPercentCrop, Crop.toPartial, Option.getD,
      Crop.mk.injEq, true_and]
    refine ⟨?_, ?_, ?_, ?_⟩ <;> field_simp <;> ring

/-- C10: for all positive image dimensions and every positive aspect ratio,
the initial crop of `onImageLoad` lies fully inside the image: in pixels,
`x >= 0`, `y >= 0`, `x + cropWidth <= width` and `y + cropHeight <= height`;
in the percentage units the crop is stored in, inside `[0,100] x [0,100]`. -/
theorem onImageLoad_within_image (a W H : ℚ) (ha : 0 < a) (hW : 0 < W) (hH : 0 < H) :
    (0 ≤ (onImageLoadPixels a W H).x ∧
      0 ≤ (onImageLoadPixels a W H).y ∧
      (onImageLoadPixels a W H).x + (onImageLoadPixels a W H).width ≤ W ∧
      (onImageLoadPixels a W H).y + (onImageLoadPixels a W H).height ≤ H) ∧
    ((onImageLoad a W H).unit = .percent ∧
      0 ≤ (onImageLoad a W H).x ∧
      0 ≤ (onImageLoad a W H).y ∧
      (onImageLoad a W H).x + (onImageLoad a W H).width ≤ 100 ∧
      (onImageLoad a W H).y + (onImageLoad a W H).height ≤ 100) := by
  obtain ⟨hu, hw0, hw1, hh0, hh1⟩ := makeAspectCrop_initial_bounds a W H ha hW hH
  have hload := centerCrop_percent _ W H hu (ne_of_gt hW) (ne_of_gt hH)
  unfold onImageLoadPixels onImageLoad
  rw [hload]
  generalize (makeAspectCrop ninetyPercentWide a W H).width = w at hw0 hw1
  generalize (makeAspectCrop ninetyPercentWide a W H).height = h at hh0 hh1
  simp only [convertToPixelCrop, Crop.toPartial, Option.getD]
  have hW100 : 0 < W / 100 := by positivity
  have hH100 : 0 < H / 100 := by positivity
  refine ⟨⟨?_, ?_, ?_, ?_⟩, trivial, by linarith, by linarith, by linarith, by linarith⟩
  · apply mul_nonneg _ hW100.le; linarith
  · apply mul_nonneg _ hH100.le; linarith
  · have : (100 - w) / 2 * (W / 100) + w * (W / 100) = W - (100 - w) / 2 * (W / 100) := by
      field_simp; ring
    rw [this]
    have : 0 ≤ (100 - w) / 2 * (W / 100) := by apply mul_nonneg _ hW100.le; linarith
    linarith
  · have : (100 - h) / 2 * (H / 100) + h * (H / 100) = H - (100 - h) / 2 * (H / 100) := by
      field_simp; ring
    rw [this]
    have : 0 ≤ (100 - h) / 2 * (H / 100) := by apply mul_nonneg _ hH100.le; linarith
    linarith

/-- Witness of C10: a 1000 x 800 image at aspect ratio 1. -/
theorem onImageLoad_within_image_witness :
    ((0 : ℚ) < 1 ∧ (0 : ℚ) < 1000 ∧ (0 : ℚ) < 800) ∧
    (0 ≤ (onImageLoadPixels 1 1000 800).x ∧
      0 ≤ (onImageLoadPixels 1 1000 800).y ∧
      (onImageLoadPixels 1 1000 800).x + (onImageLoadPixels 1 1000 800).width ≤ 1000 ∧
      (onImageLoadPixels 1 1000 800).y + (onImageLoadPixels 1 1000 800).height ≤ 800) ∧
    ((onImageLoad 1 1000 800).unit = .percent ∧
      0 ≤ (onImageLoad 1 1000 800).x ∧
      0 ≤ (onImageLoad 1 1000 800).y ∧
      (onImageLoad 1 1000 800).x + (onImageLoad 1 1000 800).width ≤ 100 ∧
      (onImageLoad 1 1000 800).y + (onImageLoad 1 1000 800).height ≤ 100) :=
  ⟨⟨by norm_num, by norm_num, by norm_num⟩,
    onImageLoad_within_image 1 1000 800 (by norm_num) (by norm_num) (by norm_num)⟩


/-! ### Crop geometry: size of the initial crop -/

/-- The initial crop in pixels, in closed form: the full height at the aspect
ratio when 90% of the width would be too high, else 90% of the width at the
aspect ratio; centered in both cases. -/
theorem onImageLoadPixels_eq (a W H : ℚ) (ha : 0 < a) (hW : 0 < W) (hH : 0 < H) :
    onImageLoadPixels a W H =
    if 90 * (W / 100) / a > H then
      { unit := .px, x := (W - H * a) / 2, y := 0, width := H * a, height := H }
    else
      { unit := .px, x := W / 20, y := (H - 90 * (W / 100) / a) / 2,
        width := 90 * (W / 100), height := 90 * (W / 100) / a } := by
  have hW0 : W ≠ 0 := ne_of_gt hW
  have hH0 : H ≠ 0 := ne_of_gt hH
  have ha0 : a ≠ 0 := ne_of_gt ha
  have hu := (makeAspectCrop_initial_bounds a W H ha hW hH).1
  unfold onImageLoadPixels onImageLoad
  rw [centerCrop_percent _ W H hu hW0 hH0, makeAspectCrop_initial a W H ha hW hH]
  by_cases h : 90 * (W / 100) / a > H
  · rw [if_pos h, if_pos h]
    simp only [convertToPixelCrop, Crop.toPartial, Option.getD]
    congr 1 <;> first | (field_simp; ring) | field_simp
  · rw [if_neg h, if_neg h]
    simp only [convertToPixelCrop, Crop.toPartial, Option.getD]
    congr 1 <;> (field_simp; ring)

/-- C11, as stated, fails: a 200 x 200 image is at least `minWidth = 200`
wide and `minHeight = 200` high, and at aspect ratio 1 it holds a 200 x 200
region, but the initial crop is 180 x 180. -/
theorem initial_crop_below_minimum :
    defaultCropperProps.minWidth ≤ 200 ∧
    defaultCropperProps.minHeight ≤ 200 ∧
    (initialCropPixels defaultCropperProps 200 200).width = 180 ∧
    (initialCropPixels defaultCropperProps 200 200).height = 180 ∧
    ¬ (defaultCropperProps.minWidth ≤ (initialCropPixels defaultCropperProps 200 200).width ∧
      defaultCropperProps.minHeight ≤ (initialCropPixels defaultCropperProps 200 200).height) := by
  have h := onImageLoadPixels_eq 1 200 200 (by norm_num) (by norm_num) (by norm_num)
  have hc : ¬ ((90 : ℚ) * (200 / 100) / 1 > 200) := by norm_num
  rw [if_neg hc] at h
  have hw : (initialCropPixels defaultCropperProps 200 200).width = 180 := by
    simp only [initialCropPixels, defaultCropperProps, h]; norm_num
  have hh : (initialCropPixels defaultCropperProps 200 200).height = 180 := by
    simp only [initialCropPixels, defaultCropperProps, h]; norm_num
  refine ⟨by simp [defaultCropperProps], by simp [defaultCropperProps], hw, hh, ?_⟩
  rw [hw, hh]
  simp only [defaultCropperProps]
  norm_num

/-- C11, amended: for positive image dimensions and a positive aspect ratio,
the initial crop of `onImageLoad` has `width >= minWidth` and
`height >= minHeight` exactly when 90% of the image width is at least
`minWidth`, the image height times the aspect ratio is at least `minWidth`,
90% of the image width divided by the aspect ratio is at least `minHeight`,
and the image height is at least `minHeight`. -/
theorem initial_crop_meets_minimum_iff (props : CropperProps) (W H : ℚ)
    (ha : 0 < props.aspectRatio) (hW : 0 < W) (hH : 0 < H) :
    (props.minWidth ≤ (initialCropPixels props W H).width ∧
      props.minHeight ≤ (initialCropPixels props W H).height) ↔
    (props.minWidth ≤ 9 / 10 * W ∧ props.minWidth ≤ H * props.aspectRatio ∧
      props.minHeight ≤ 9 / 10 * W / props.aspectRatio ∧ props.minHeight ≤ H) := by
  have h := onImageLoadPixels_eq props.aspectRatio W H ha hW hH
  have e : 90 * (W / 100) = 9 / 10 * W := by ring
  rw [e] at h
  unfold initialCropPixels
  rw [h]
  by_cases hc : 9 / 10 * W / props.aspectRatio > H
  · rw [if_pos hc]
    have hlt : H * props.aspectRatio < 9 / 10 * W := by
      rw [gt_iff_lt, lt_div_iff₀ ha] at hc
      exact hc
    constructor
    · rintro ⟨h1, h2⟩
      exact ⟨by linarith, h1, by linarith, h2⟩
    · rintro ⟨-, h2, -, h4⟩
      exact ⟨h2, h4⟩
  · rw [if_neg hc]
    have hle : 9 / 10 * W / props.aspectRatio ≤ H := not_lt.mp hc
    have hle2 : 9 / 10 * W ≤ H * props.aspectRatio := by
      rw [div_le_iff₀ ha] at hle
      exact hle
    constructor
    · rintro ⟨h1, h2⟩
      exact ⟨h1, by linarith, h2, by linarith⟩
    · rintro ⟨h1, -, h3, -⟩
      exact ⟨h1, h3⟩

/-- Witness of C11 (amended): a 1000 x 800 image under the default props. -/
theorem initial_crop_meets_minimum_iff_witness :
    ((0 : ℚ) < defaultCropperProps.aspectRatio ∧ (0 : ℚ) < 1000 ∧ (0 : ℚ) < 800) ∧
    ((defaultCropperProps.minWidth ≤ (initialCropPixels defaultCropperProps 1000 800).width ∧
      defaultCropperProps.minHeight ≤ (initialCropPixels defaultCropperProps 1000 800).height) ↔
    (defaultCropperProps.minWidth ≤ 9 / 10 * 1000 ∧
      defaultCropperProps.minWidth ≤ 800 * defaultCropperProps.aspectRatio ∧
      defaultCropperProps.minHeight ≤ 9 / 10 * 1000 / defaultCropperProps.aspectRatio ∧
      defaultCropperProps.minHeight ≤ 800)) :=
  ⟨⟨by simp [defaultCropperProps], by norm_num, by norm_num⟩,
    initial_crop_meets_minimum_iff defaultCropperProps 1000 800
      (by simp [defaultCropperProps]) (by norm_num) (by norm_num)⟩

/-- C12: for a 1000 x 800 image at aspect ratio 1 the initial crop of
`onImageLoad` is 800 wide and 800 high, at `x = 100`, `y = 0` in pixels; in
percentage units it is 80% x 100% at 10%, 0%. -/
theorem onImageLoad_1000x800 :
    onImageLoadPixels 1 1000 800 = { unit := .px, x := 100, y := 0, width := 800, height := 800 } ∧
    onImageLoad 1 1000 800 = { unit := .percent, x := 10, y := 0, width := 80, height := 100 } ∧
    (onImageLoadPixels 1 1000 800).x = (1000 - (onImageLoadPixels 1 1000 800).width) / 2 ∧
    (onImageLoadPixels 1 1000 800).y = (800 - (onImageLoadPixels 1 1000 800).height) / 2 := by
  have h := onImageLoadPixels_eq 1 1000 800 (by norm_num) (by norm_num) (by norm_num)
  have hc : (90 : ℚ) * (1000 / 100) / 1 > 800 := by norm_num
  rw [if_pos hc] at h
  have hpx : onImageLoadPixels 1 1000 800
      = { unit := .px, x := 100, y := 0, width := 800, height := 800 } := by
    rw [h]; norm_num
  have hm := makeAspectCrop_initial 1 1000 800 (by norm_num) (by norm_num) (by norm_num)
  rw [if_pos hc] at hm
  have hpc : onImageLoad 1 1000 800
      = { unit := .percent, x := 10, y := 0, width := 80, height := 100 } := by
    unfold onImageLoad
    rw [hm, centerCrop_percent _ 1000 800 rfl (by norm_num) (by norm_num)]
    norm_num
  refine ⟨hpx, hpc, ?_, ?_⟩
  · rw [hpx]; norm_num
  · rw [hpx]; norm_num

/-- C13, as stated, fails: for a 50 x 50 image under `minWidth = 200` (aspect
ratio 1) the initial crop is not the full image; its width is 45, not 50. -/
theorem initial_crop_50x50_not_full :
    defaultCropperProps.minWidth = 200 ∧
    defaultCropperProps.aspectRatio = 1 ∧
    initialCropPixels defaultCropperProps 50 50
      ≠ { unit := .px, x := 0, y := 0, width := 50, height := 50 } ∧
    (initialCropPixels defaultCropperProps 50 50).width ≠ 50 := by
  have h := onImageLoadPixels_eq 1 50 50 (by norm_num) (by norm_num) (by norm_num)
  have hc : ¬ ((90 : ℚ) * (50 / 100) / 1 > 50) := by norm_num
  rw [if_neg hc] at h
  have hw : (initialCropPixels defaultCropperProps 50 50).width = 45 := by
    simp only [initialCropPixels, defaultCropperProps, h]; norm_num
  refine ⟨rfl, rfl, ?_, ?_⟩
  · intro hfull
    rw [hfull] at hw
    norm_num at hw
  · rw [hw]; norm_num

/-- C13, amended: for a 50 x 50 image under `minWidth = 200` (aspect ratio 1)
the initial crop of `onImageLoad` is the centered 90% region, `x = 2.5`,
`y = 2.5`, `width = 45`, `height = 45`; in percentage units 90% x 90% at 5%,
5%. -/
theorem initial_crop_50x50 :
    initialCropPixels defaultCropperProps 50 50
      = { unit := .px, x := 5 / 2, y := 5 / 2, width := 45, height := 45 } ∧
    onImageLoad defaultCropperProps.aspectRatio 50 50
      = { unit := .percent, x := 5, y := 5, width := 90, height := 90 } := by
  have h := onImageLoadPixels_eq 1 50 50 (by norm_num) (by norm_num) (by norm_num)
  have hc : ¬ ((90 : ℚ) * (50 / 100) / 1 > 50) := by norm_num
  rw [if_neg hc] at h
  have hm := makeAspectCrop_initial 1 50 50 (by norm_num) (by norm_num) (by norm_num)
  rw [if_neg hc] at hm
  constructor
  · simp only [initialCropPixels, defaultCropperProps, h]; norm_num
  · simp only [defaultCropperProps]
    unfold onImageLoad
    rw [hm, centerCrop_percent _ 50 50 rfl (by norm_num) (by norm_num)]
    norm_num

/-! ### Raster extraction -/

/-- In the range of canvas sizes the `unsigned long` conversion is the floor. -/
theorem toUnsignedLong_of_range (v : ℚ) (h0 : 0 ≤ v) (h1 : v < 2 ^ 31) :
    toUnsignedLong v = ⌊v⌋ := by
  unfold toUnsignedLong
  rw [if_pos h0]
  apply Int.emod_eq_of_lt
  · exact Int.floor_nonneg.mpr h0
  · have h2 : (⌊v⌋ : ℚ) ≤ v := Int.floor_le v
    have h3 : (⌊v⌋ : ℚ) < ((2 ^ 32 : ℤ) : ℚ) := by
      push_cast
      linarith
    exact_mod_cast h3

/-- The whole number kept by the canvas is `Math.round` of the assigned number
exactly when the fractional part of that number is below one half. -/
theorem toUnsignedLong_eq_mathRound_iff (v : ℚ) (h0 : 0 ≤ v) (h1 : v < 2 ^ 31) :
    toUnsignedLong v = mathRound v ↔ v - (toUnsignedLong v : ℚ) < 1 / 2 := by
  rw [toUnsignedLong_of_range v h0 h1]
  unfold mathRound
  constructor
  · intro h
    have h2 := Int.lt_floor_add_one (v + 1 / 2)
    rw [← h] at h2
    linarith
  · intro h
    symm
    rw [Int.floor_eq_iff]
    have h3 := Int.floor_le v
    constructor <;> linarith

/-- C14, as stated, fails: a completed crop 100.75 wide and 50.5 high on an
image displayed at its natural size, `devicePixelRatio = 1`. The effect assigns
100.75 and 50.5 to the canvas, which keeps 100 and 50, while rounding gives 101
and 51. -/
theorem canvas_size_not_rounded :
    extractionEffect (some ⟨.px, 0, 0, 403 / 4, 101 / 2⟩) (some ⟨200, 100, 200, 100⟩) true 1
      = some (extract ⟨200, 100, 200, 100⟩ 1 ⟨.px, 0, 0, 403 / 4, 101 / 2⟩) ∧
    (extract ⟨200, 100, 200, 100⟩ 1 ⟨.px, 0, 0, 403 / 4, 101 / 2⟩).canvasWidth = 403 / 4 ∧
    (extract ⟨200, 100, 200, 100⟩ 1 ⟨.px, 0, 0, 403 / 4, 101 / 2⟩).canvasHeight = 101 / 2 ∧
    toUnsignedLong (extract ⟨200, 100, 200, 100⟩ 1 ⟨.px, 0, 0, 403 / 4, 101 / 2⟩).canvasWidth
      = 100 ∧
    toUnsignedLong (extract ⟨200, 100, 200, 100⟩ 1 ⟨.px, 0, 0, 403 / 4, 101 / 2⟩).canvasHeight
      = 50 ∧
    mathRound ((403 / 4 : ℚ) * ((200 : ℚ) / 200) * 1) = 101 ∧
    mathRound ((101 / 2 : ℚ) * ((100 : ℚ) / 100) * 1) = 51 := by
  have hw : (extract ⟨200, 100, 200, 100⟩ 1 ⟨.px, 0, 0, 403 / 4, 101 / 2⟩).canvasWidth
      = 403 / 4 := by
    simp only [extract]; norm_num
  have hh : (extract ⟨200, 100, 200, 100⟩ 1 ⟨.px, 0, 0, 403 / 4, 101 / 2⟩).canvasHeight
      = 101 / 2 := by
    simp only [extract]; norm_num
  refine ⟨rfl, hw, hh, ?_, ?_, ?_, ?_⟩
  · rw [hw, toUnsignedLong_of_range _ (by norm_num) (by norm_num), Int.floor_eq_iff]; norm_num
  · rw [hh, toUnsignedLong_of_range _ (by norm_num) (by norm_num), Int.floor_eq_iff]; norm_num
  · rw [mathRound, Int.floor_eq_iff]; norm_num
  · rw [mathRound, Int.floor_eq_iff]; norm_num

/-- C14, amended: for every completed crop on a mounted image of positive
displayed size, with `scaleX = naturalWidth / width` and
`scaleY = naturalHeight / height`, the extraction effect assigns
`crop.width * scaleX * devicePixelRatio` and
`crop.height * scaleY * devicePixelRatio` to the canvas unrounded; for sizes
from 0 up to `2^31` the canvas keeps the whole part of each, which is `round`
of it exactly when its fractional part is below one half. -/
theorem canvas_size_truncated (crop : Crop) (image : ImageElement) (pixelRatio : ℚ)
    (hw : 0 < image.width) (hh : 0 < image.height)
    (hcw0 : 0 ≤ crop.width * (image.naturalWidth / image.width) * pixelRatio)
    (hcw1 : crop.width * (image.naturalWidth / image.width) * pixelRatio < 2 ^ 31)
    (hch0 : 0 ≤ crop.height * (image.naturalHeight / image.height) * pixelRatio)
    (hch1 : crop.height * (image.naturalHeight / image.height) * pixelRatio < 2 ^ 31) :
    ∃ e : Extraction,
      extractionEffect (some crop) (some image) true pixelRatio = some e ∧
      e.canvasWidth = crop.width * (image.naturalWidth / image.width) * pixelRatio ∧
      e.canvasHeight = crop.height * (image.naturalHeight / image.height) * pixelRatio ∧
      (toUnsignedLong e.canvasWidth : ℚ) ≤ e.canvasWidth ∧
      e.canvasWidth < (toUnsignedLong e.canvasWidth : ℚ) + 1 ∧
      (toUnsignedLong e.canvasHeight : ℚ) ≤ e.canvasHeight ∧
      e.canvasHeight < (toUnsignedLong e.canvasHeight : ℚ) + 1 ∧
      (toUnsignedLong e.canvasWidth
          = mathRound (crop.width * (image.naturalWidth / image.width) * pixelRatio) ↔
        e.canvasWidth - (toUnsignedLong e.canvasWidth : ℚ) < 1 / 2) ∧
      (toUnsignedLong e.canvasHeight
          = mathRound (crop.height * (image.naturalHeight / image.height) * pixelRatio) ↔
        e.canvasHeight - (toUnsignedLong e.canvasHeight : ℚ) < 1 / 2) := by
  have hw0 : image.width ≠ 0 := ne_of_gt hw
  have hh0 : image.height ≠ 0 := ne_of_gt hh
  have ew : (extract image pixelRatio crop).canvasWidth
      = crop.width * (image.naturalWidth / image.width) * pixelRatio := rfl
  have eh : (extract image pixelRatio crop).canvasHeight
      = crop.height * (image.naturalHeight / image.height) * pixelRatio := rfl
  refine ⟨extract image pixelRatio crop, rfl, ew, eh, ?_, ?_, ?_, ?_, ?_, ?_⟩
  · rw [ew, toUnsignedLong_of_range _ hcw0 hcw1]; exact Int.floor_le _
  · rw [ew, toUnsignedLong_of_range _ hcw0 hcw1]; exact Int.lt_floor_add_one _
  · rw [eh, toUnsignedLong_of_range _ hch0 hch1]; exact Int.floor_le _
  · rw [eh, toUnsignedLong_of_range _ hch0 hch1]; exact Int.lt_floor_add_one _
  · rw [ew]; exact toUnsignedLong_eq_mathRound_iff _ hcw0 hcw1
  · rw [eh]; exact toUnsignedLong_eq_mathRound_iff _ hch0 hch1

/-- Witness of C14 (amended): a 100.75 x 50.5 crop of an image displayed at
its natural size of 200 x 100, `devicePixelRatio = 1`. -/
theorem canvas_size_truncated_witness :
    ∃ e : Extraction,
      extractionEffect (some ⟨.px, 0, 0, 403 / 4, 101 / 2⟩) (some ⟨200, 100, 200, 100⟩) true 1
        = some e ∧
      (toUnsignedLong e.canvasWidth : ℚ) ≤ e.canvasWidth ∧
      e.canvasWidth < (toUnsignedLong e.canvasWidth : ℚ) + 1 := by
  obtain ⟨e, h1, -, -, h4, h5, -⟩ := canvas_size_truncated ⟨.px, 0, 0, 403 / 4, 101 / 2⟩
    ⟨200, 100, 200, 100⟩ 1 (by norm_num) (by norm_num) (by norm_num) (by norm_num)
    (by norm_num) (by norm_num)
  exact ⟨e, h1, h4, h5⟩

/-- C17, as stated, fails: when `toBlob` calls back with `null`,
`handleApplyCrop` writes to the console and returns; neither `onCropComplete`
nor `onCancel` is called, so the flow is not notified. -/
theorem handleApplyCrop_null_blob_silent :
    handleApplyCrop (some ⟨.px, 100, 0, 800, 800⟩) true none
      = [.toBlob, .consoleError "Canvas is empty"] ∧
    flowNotifications (handleApplyCrop (some ⟨.px, 100, 0, 800, 800⟩) true none) = [] := by
  constructor <;> rfl

/-- C17, amended: when `toBlob` calls back with `null`, `handleApplyCrop` logs
`Canvas is empty` to the console and returns without calling `onCropComplete`
or `onCancel`; with a blob it calls `onCropComplete` once, with the file
`cropped-image.png` of type `image/png` and `isOriginal = false`. -/
theorem handleApplyCrop_null_blob_logs (crop : Crop) :
    handleApplyCrop (some crop) true none = [.toBlob, .consoleError "Canvas is empty"] ∧
    flowNotifications (handleApplyCrop (some crop) true none) = [] ∧
    (∀ size : Nat,
      flowNotifications (handleApplyCrop (some crop) true (some size))
        = [.onCropComplete ⟨"cropped-image.png", "image/png", size⟩ false]) := by
  refine ⟨rfl, rfl, ?_⟩
  intro size
  rfl

/-! ### URL formatting and the transport adapter -/

/-- A string that starts with a non-empty text is not empty. -/
theorem truthy_of_startsWith (s p : String) (hp : p.data ≠ []) (h : startsWith s p = true) :
    truthy s = true := by
  unfold truthy
  rw [bne_iff_ne]
  intro hs
  subst hs
  unfold startsWith at h
  cases hd : p.data with
  | nil => exact hp hd
  | cons c cs => rw [hd] at h; simp [List.isPrefixOf] at h

/-- C18 fails on the code: `HTTPS://cdn.example.com/a.png` is an absolute URL
with its scheme in upper case, and both helpers put the server base URL and a
slash before it, against the comment `If already a full URL, return as is`:
the test `startsWith('http')` compares the letters as they are written. -/
theorem format_url_uppercase_scheme_changed :
    isHttpUrl "HTTPS://cdn.example.com/a.png" = true ∧
    formatImageUrl defaultServerBaseUrl "HTTPS://cdn.example.com/a.png"
      = "http://localhost:5001/HTTPS://cdn.example.com/a.png" ∧
    formatFileUrl defaultServerBaseUrl "HTTPS://cdn.example.com/a.png"
      = "http://localhost:5001/HTTPS://cdn.example.com/a.png" ∧
    formatImageUrl defaultServerBaseUrl "HTTPS://cdn.example.com/a.png"
      ≠ "HTTPS://cdn.example.com/a.png" ∧
    formatFileUrl defaultServerBaseUrl "HTTPS://cdn.example.com/a.png"
      ≠ "HTTPS://cdn.example.com/a.png" := by
  refine ⟨by decide, by decide, by decide, by decide, by decide⟩

/-- C19 fails on the code: `httpdocs/a.png` is a non-empty relative path, not
an `http://` or `https://` URL, and `formatImageUrl` returns it unchanged
instead of resolving it against the server base URL, against the comments
`If already a full URL, return as is` and `Otherwise, assume it's a relative
path and prepend server URL with /`: the test `startsWith('http')` takes every
path that begins with these four letters for a full URL. -/
theorem format_url_relative_http_unresolved :
    truthy "httpdocs/a.png" = true ∧
    isHttpUrl "httpdocs/a.png" = false ∧
    startsWith "httpdocs/a.png" "/" = false ∧
    formatImageUrl defaultServerBaseUrl "httpdocs/a.png" = "httpdocs/a.png" ∧
    formatImageUrl defaultServerBaseUrl "httpdocs/a.png"
      ≠ defaultServerBaseUrl ++ "/" ++ "httpdocs/a.png" := by
  refine ⟨by decide, by decide, by decide, by decide, by decide⟩

/-- C20: given a JSON body, `handleResponse` throws exactly when the response
is not ok; the error's message is `data.message` when the body carries a
(non-empty) one and `Something went wrong` otherwise; for an ok response the
parsed body is returned unchanged, whatever its `status` field.
`uploadImage` passes both outcomes on. -/
theorem handleResponse_rejects_iff_not_ok (response : HttpResponse) :
    ((∃ m, handleResponse response = .error m) ↔ response.ok = false) ∧
    (response.ok = false → ∀ m, response.data.message = some m → m ≠ "" →
      handleResponse response = .error m ∧ uploadImage (.ok response) = .rejected m) ∧
    (response.ok = false → (response.data.message = none ∨ response.data.message = some "") →
      handleResponse response = .error "Something went wrong" ∧
      uploadImage (.ok response) = .rejected "Something went wrong") ∧
    (response.ok = true →
      handleResponse response = .ok response.data ∧
      uploadImage (.ok response) = .resolved response.data) := by
  cases hok : response.ok with
  | true =>
    refine ⟨?_, ?_, ?_, ?_⟩
    · simp [handleResponse, hok]
    · intro h; cases h
    · intro h; cases h
    · intro _
      simp [uploadImage, handleResponse, hok]
  | false =>
    refine ⟨?_, ?_, ?_, ?_⟩
    · simp [handleResponse, hok]
    · intro _ m hm hne
      simp [uploadImage, handleResponse, hok, hm, truthy, hne]
    · intro _ hm
      rcases hm with hm | hm <;> simp [uploadImage, handleResponse, hok, hm, truthy]
    · intro h; cases h


/-! ### Upload coordinator: results, interleaving and invariants -/

/-- C21 fails on the code: for the file name `my.photo.png` the name without
its extension is `my.photo`, but `name.split('.')[0]` is `my`, and that is the
`alt` handed to `onImageSelect` after a successful direct upload. -/
theorem alt_text_cut_at_first_dot :
    withoutExtension "my.photo.png" = "my.photo" ∧
    altText "my.photo.png" = "my" ∧
    selections
      (handleFileSelect defaultServerBaseUrl ⟨.null, 15 * 1024 * 1024, false⟩ ⟨0⟩
        ⟨"my.photo.png", "image/png", 1000⟩ none
        (.resolved ⟨"success", "/uploads/n.png", none⟩)
        (initialState defaultServerBaseUrl ⟨.null, 15 * 1024 * 1024, false⟩)).2
      = [.obj "/uploads/n.png" "my"] ∧
    altText "my.photo.png" ≠ withoutExtension "my.photo.png" := by
  refine ⟨by decide, by decide, by decide, by decide⟩

/-- C22 fails on the code. File A is selected and its crop confirmed while
`blob` URL 1 is held; while A's upload is in flight file B is selected, which
puts `blob` URL 2 into `tempImageUrl` and opens the cropper; then A's upload
settles. A's `finally` revokes URL 1 once and never URL 2, but its
`setTempImageUrl(null)` clears the cell that now holds B's URL: B's cropper
disappears and URL 2 is left unrevoked. -/
theorem stale_cleanup_clears_new_flow :
    (handleFileSelect defaultServerBaseUrl ⟨.null, 15 * 1024 * 1024, true⟩ ⟨2⟩
      ⟨"b.png", "image/png", 2000⟩ none (.rejected "")
      (handleCropCompleteStart ⟨"cropped-image.png", "image/png", 900⟩
        (handleFileSelect defaultServerBaseUrl ⟨.null, 15 * 1024 * 1024, true⟩ ⟨1⟩
          ⟨"a.png", "image/png", 1000⟩ none (.rejected "")
          (initialState defaultServerBaseUrl
            ⟨.null, 15 * 1024 * 1024, true⟩)).1).1).1.tempImageUrl = some ⟨2⟩ ∧
    cropperVisible
      (handleFileSelect defaultServerBaseUrl ⟨.null, 15 * 1024 * 1024, true⟩ ⟨2⟩
        ⟨"b.png", "image/png", 2000⟩ none (.rejected "")
        (handleCropCompleteStart ⟨"cropped-image.png", "image/png", 900⟩
          (handleFileSelect defaultServerBaseUrl ⟨.null, 15 * 1024 * 1024, true⟩ ⟨1⟩
            ⟨"a.png", "image/png", 1000⟩ none (.rejected "")
            (initialState defaultServerBaseUrl
              ⟨.null, 15 * 1024 * 1024, true⟩)).1).1).1 = true ∧
    revocations
      (handleCropCompleteSettle defaultServerBaseUrl ⟨.null, 15 * 1024 * 1024, true⟩ (some ⟨1⟩)
        ⟨"cropped-image.png", "image/png", 900⟩ (.resolved ⟨"success", "/uploads/a.png", none⟩)
        (handleFileSelect defaultServerBaseUrl ⟨.null, 15 * 1024 * 1024, true⟩ ⟨2⟩
          ⟨"b.png", "image/png", 2000⟩ none (.rejected "")
          (handleCropCompleteStart ⟨"cropped-image.png", "image/png", 900⟩
            (handleFileSelect defaultServerBaseUrl ⟨.null, 15 * 1024 * 1024, true⟩ ⟨1⟩
              ⟨"a.png", "image/png", 1000⟩ none (.rejected "")
              (initialState defaultServerBaseUrl
                ⟨.null, 15 * 1024 * 1024, true⟩)).1).1).1).2 = [⟨1⟩] ∧
    (handleCropCompleteSettle defaultServerBaseUrl ⟨.null, 15 * 1024 * 1024, true⟩ (some ⟨1⟩)
      ⟨"cropped-image.png", "image/png", 900⟩ (.resolved ⟨"success", "/uploads/a.png", none⟩)
      (handleFileSelect defaultServerBaseUrl ⟨.null, 15 * 1024 * 1024, true⟩ ⟨2⟩
        ⟨"b.png", "image/png", 2000⟩ none (.rejected "")
        (handleCropCompleteStart ⟨"cropped-image.png", "image/png", 900⟩
          (handleFileSelect defaultServerBaseUrl ⟨.null, 15 * 1024 * 1024, true⟩ ⟨1⟩
            ⟨"a.png", "image/png", 1000⟩ none (.rejected "")
            (initialState defaultServerBaseUrl
              ⟨.null, 15 * 1024 * 1024, true⟩)).1).1).1).1.tempImageUrl = none ∧
    cropperVisible
      (handleCropCompleteSettle defaultServerBaseUrl ⟨.null, 15 * 1024 * 1024, true⟩ (some ⟨1⟩)
        ⟨"cropped-image.png", "image/png", 900⟩ (.resolved ⟨"success", "/uploads/a.png", none⟩)
        (handleFileSelect defaultServerBaseUrl ⟨.null, 15 * 1024 * 1024, true⟩ ⟨2⟩
          ⟨"b.png", "image/png", 2000⟩ none (.rejected "")
          (handleCropCompleteStart ⟨"cropped-image.png", "image/png", 900⟩
            (handleFileSelect defaultServerBaseUrl ⟨.null, 15 * 1024 * 1024, true⟩ ⟨1⟩
              ⟨"a.png", "image/png", 1000⟩ none (.rejected "")
              (initialState defaultServerBaseUrl
                ⟨.null, 15 * 1024 * 1024, true⟩)).1).1).1).1 = false := by
  refine ⟨by decide, by decide, by decide, by decide, by decide⟩

/-- C24, as stated, fails for the empty message: a call rejected with
`Error('')` leaves the error `Upload failed: `, a call resolved with
`{status: 'error', message: ''}` leaves `Upload failed: Upload failed`. -/
theorem empty_message_outcomes_differ :
    (handleFileSelect defaultServerBaseUrl ⟨.null, 15 * 1024 * 1024, false⟩ ⟨0⟩
      ⟨"a.png", "image/png", 1000⟩ none (.rejected "")
      (initialState defaultServerBaseUrl ⟨.null, 15 * 1024 * 1024, false⟩)).1.error
      = "Upload failed: " ∧
    (handleFileSelect defaultServerBaseUrl ⟨.null, 15 * 1024 * 1024, false⟩ ⟨0⟩
      ⟨"a.png", "image/png", 1000⟩ none (.resolved ⟨"error", "", some ""⟩)
      (initialState defaultServerBaseUrl ⟨.null, 15 * 1024 * 1024, false⟩)).1.error
      = "Upload failed: Upload failed" ∧
    (handleFileSelect defaultServerBaseUrl ⟨.null, 15 * 1024 * 1024, false⟩ ⟨0⟩
      ⟨"a.png", "image/png", 1000⟩ none (.rejected "")
      (initialState defaultServerBaseUrl ⟨.null, 15 * 1024 * 1024, false⟩)).1
      ≠ (handleFileSelect defaultServerBaseUrl ⟨.null, 15 * 1024 * 1024, false⟩ ⟨0⟩
        ⟨"a.png", "image/png", 1000⟩ none (.resolved ⟨"error", "", some ""⟩)
        (initialState defaultServerBaseUrl ⟨.null, 15 * 1024 * 1024, false⟩)).1 := by
  refine ⟨by decide, by decide, by decide⟩

/-- The `try`/`catch` calls `onImageSelect` only for a call resolved with
status `success`. -/
theorem uploadTryCatch_selections (base : String) (p : Props) (file : File)
    (outcome : UploadOutcome) (s : State)
    (hsel : selections (uploadTryCatch base p file outcome s).2 ≠ []) :
    ∃ r, outcome = .resolved r ∧ r.status = "success" := by
  cases outcome with
  | rejected m => simp [uploadTryCatch, uploadTry, selections] at hsel
  | resolved r =>
    by_cases hs : r.status = "success"
    · exact ⟨r, rfl, hs⟩
    · simp [uploadTryCatch, uploadTry, selections, hs] at hsel

/-- C24, amended: `onImageSelect` is invoked only when `uploadImage` resolves
with status exactly `success`, and for the same non-empty message `m` a call
rejected with `Error(m)` and a call resolved with a status other than `success`
and the message `m` leave the component in the same state and perform the same
effects, on the crop path and on the direct path. -/
theorem non_success_outcomes_alike (base : String) (p : Props) (file : File)
    (isOriginal : Bool) (imageUrl : ObjectUrl) (readerResult : Option String)
    (r : UploadResponse) (m : String) (s : State)
    (hstatus : r.status ≠ "success") (hmessage : r.message = some m) (hm : m ≠ "") :
    handleCropComplete base p file isOriginal readerResult (.resolved r) s
      = handleCropComplete base p file isOriginal readerResult (.rejected m) s ∧
    handleFileSelect base p imageUrl file readerResult (.resolved r) s
      = handleFileSelect base p imageUrl file readerResult (.rejected m) s ∧
    (∀ outcome : UploadOutcome,
      selections (handleCropComplete base p file isOriginal readerResult outcome s).2 ≠ [] →
      ∃ r0, outcome = .resolved r0 ∧ r0.status = "success") ∧
    (∀ outcome : UploadOutcome,
      selections (handleFileSelect base p imageUrl file readerResult outcome s).2 ≠ [] →
      ∃ r0, outcome = .resolved r0 ∧ r0.status = "success") := by
  have hsame : ∀ s0 : State, uploadTryCatch base p file (.resolved r) s0
      = uploadTryCatch base p file (.rejected m) s0 := by
    intro s0
    rw [uploadTryCatch_of_failed base p file (.resolved r)
        (by simp [transportFailed, hstatus]) s0,
      uploadTryCatch_of_failed base p file (.rejected m) (by simp [transportFailed]) s0]
    simp [thrownMessage, failureMessage, hmessage, truthy, hm]
  refine ⟨?_, ?_, ?_, ?_⟩
  · simp only [handleCropComplete, handleCropCompleteSettle, hsame]
  · simp only [handleFileSelect, hsame]
  · intro outcome hsel
    apply uploadTryCatch_selections base p file outcome
      (deliverReader readerResult (handleCropCompleteStart file s).1)
    intro hnil
    apply hsel
    cases h : s.tempImageUrl <;>
      simp [handleCropComplete, handleCropCompleteStart, handleCropCompleteSettle,
        handleCropCompleteFinally, selections, h] at hnil ⊢ <;>
      simpa [selections, handleCropCompleteStart] using hnil
  · intro outcome hsel
    by_cases hv : (validateFile p file s).1 = true
    · by_cases hc : p.enableCropping = true
      · simp [handleFileSelect, hv, hc, prepareImageForCropping, selections] at hsel
        split at hsel <;> simp at hsel
      · apply uploadTryCatch_selections base p file outcome
          (deliverReader readerResult { (validateFile p file s).2 with uploading := true })
        intro hnil
        apply hsel
        simp [handleFileSelect, hv, hc, selections] at hnil ⊢
        exact hnil
    · simp [handleFileSelect, hv, selections] at hsel

/-- Witness of C24 (amended): the message `Server error`, rejected and resolved
with status `error`, on the crop path. -/
theorem non_success_outcomes_alike_witness :
    (("error" : String) ≠ "success" ∧
      (some "Server error" : Option String) = some "Server error" ∧
      ("Server error" : String) ≠ "") ∧
    handleCropComplete defaultServerBaseUrl ⟨.null, 15 * 1024 * 1024, true⟩
        ⟨"cropped-image.png", "image/png", 900⟩ false none
        (.resolved ⟨"error", "", some "Server error"⟩)
        ⟨false, .null, "", false, true, some ⟨"b.png", "image/png", 1000⟩, some ⟨7⟩⟩
      = handleCropComplete defaultServerBaseUrl ⟨.null, 15 * 1024 * 1024, true⟩
        ⟨"cropped-image.png", "image/png", 900⟩ false none (.rejected "Server error")
        ⟨false, .null, "", false, true, some ⟨"b.png", "image/png", 1000⟩, some ⟨7⟩⟩ :=
  ⟨⟨by decide, rfl, by decide⟩,
    (non_success_outcomes_alike defaultServerBaseUrl ⟨.null, 15 * 1024 * 1024, true⟩
      ⟨"cropped-image.png", "image/png", 900⟩ false ⟨0⟩ none ⟨"error", "", some "Server error"⟩
      "Server error"
      ⟨false, .null, "", false, true, some ⟨"b.png", "image/png", 1000⟩, some ⟨7⟩⟩
      (by decide) rfl (by decide)).1⟩

/-- The boolean of `validateFile` is the validation gate. -/
theorem validateFile_gate (p : Props) (file : File) (s : State) :
    (validateFile p file s).1 = true ↔
      (startsWith file.type "image/" = true ∧ file.size ≤ p.maxSize) := by
  unfold validateFile
  by_cases h1 : startsWith file.type "image/" = true
  · by_cases h2 : file.size > p.maxSize
    · simp [h1, h2]
    · simp [h1, h2]; omega
  · simp [h1]

/-- C23: for positive image dimensions `W x H` and a positive aspect ratio `a`
the initial crop of `onImageLoad` has pixel width / pixel height = `a`, is
centered (`x = (W - w)/2`, `y = (H - h)/2`), and is exactly 90% of `W` wide
whenever a region `0.9 * W` wide at ratio `a` fits in the image height. -/
theorem onImageLoad_ratio_centered (a W H : ℚ) (ha : 0 < a) (hW : 0 < W) (hH : 0 < H) :
    (onImageLoadPixels a W H).width / (onImageLoadPixels a W H).height = a ∧
    (onImageLoadPixels a W H).x = (W - (onImageLoadPixels a W H).width) / 2 ∧
    (onImageLoadPixels a W H).y = (H - (onImageLoadPixels a W H).height) / 2 ∧
    (9 / 10 * W / a ≤ H → (onImageLoadPixels a W H).width = 9 / 10 * W) := by
  have hW0 : W ≠ 0 := ne_of_gt hW
  have hH0 : H ≠ 0 := ne_of_gt hH
  have ha0 : a ≠ 0 := ne_of_gt ha
  have e : 90 * (W / 100) = 9 / 10 * W := by ring
  rw [onImageLoadPixels_eq a W H ha hW hH, e]
  by_cases hc : 9 / 10 * W / a > H
  · rw [if_pos hc]
    refine ⟨?_, rfl, ?_, ?_⟩
    · show H * a / H = a
      field_simp
    · show (0 : ℚ) = (H - H) / 2
      simp
    · intro hfit
      exact absurd hc (not_lt.mpr hfit)
  · rw [if_neg hc]
    refine ⟨?_, ?_, rfl, ?_⟩
    · show 9 / 10 * W / (9 / 10 * W / a) = a
      field_simp
      ring
    · show W / 20 = (W - 9 / 10 * W) / 2
      ring
    · intro _
      rfl

/-- Witness of C23: a 1000 x 800 image at aspect ratio 2. -/
theorem onImageLoad_ratio_centered_witness :
    ((0 : ℚ) < 2 ∧ (0 : ℚ) < 1000 ∧ (0 : ℚ) < 800) ∧
    (onImageLoadPixels 2 1000 800).width / (onImageLoadPixels 2 1000 800).height = 2 ∧
    (onImageLoadPixels 2 1000 800).x = (1000 - (onImageLoadPixels 2 1000 800).width) / 2 ∧
    (onImageLoadPixels 2 1000 800).y = (800 - (onImageLoadPixels 2 1000 800).height) / 2 ∧
    ((9 / 10 * 1000 / 2 : ℚ) ≤ 800 → (onImageLoadPixels 2 1000 800).width = 9 / 10 * 1000) :=
  ⟨⟨by norm_num, by norm_num, by norm_num⟩,
    onImageLoad_ratio_centered 2 1000 800 (by norm_num) (by norm_num) (by norm_num)⟩

/-- C26: `handleRemoveImage` sets the preview to null and calls
`onImageSelect` exactly once, with `''` when `currentImage` is a string and
with `{url: '', alt: ''}` otherwise; it makes no upload call, revokes nothing,
and leaves `error` and `uploading` (and the cropper state) unchanged. -/
theorem handleRemoveImage_clears (p : Props) (s : State) :
    (handleRemoveImage p s).1.preview = .null ∧
    ((∃ c, p.currentImage = .str c) →
      (handleRemoveImage p s).2 = [Effect.onImageSelect (.str "")]) ∧
    ((¬ ∃ c, p.currentImage = .str c) →
      (handleRemoveImage p s).2 = [Effect.onImageSelect (.obj "" "")]) ∧
    (selections (handleRemoveImage p s).2).length = 1 ∧
    uploads (handleRemoveImage p s).2 = [] ∧
    revocations (handleRemoveImage p s).2 = [] ∧
    (handleRemoveImage p s).1.error = s.error ∧
    (handleRemoveImage p s).1.uploading = s.uploading ∧
    (handleRemoveImage p s).1 = { s with preview := .null } := by
  refine ⟨rfl, ?_, ?_, ?_, ?_, ?_, rfl, rfl, rfl⟩
  · rintro ⟨c, hc⟩
    simp [handleRemoveImage, hc]
  · intro hc
    cases hci : p.currentImage with
    | str c => exact absurd ⟨c, hci⟩ hc
    | null => simp [handleRemoveImage, hci]
    | obj url alt => simp [handleRemoveImage, hci]
  · simp [handleRemoveImage, selections]
  · simp [handleRemoveImage, uploads]
  · simp [handleRemoveImage, revocations]

/-- C27, as stated, fails on the crop path: with `maxSize` = 15 MB, a crop
whose PNG blob has 20 MB is handed by `handleApplyCrop` to `onCropComplete`,
and `handleCropComplete` uploads it although it does not pass the gate. -/
theorem cropped_file_not_validated :
    flowNotifications (handleApplyCrop (some ⟨.px, 0, 0, 4000, 3000⟩) true (some 20971520))
      = [.onCropComplete ⟨"cropped-image.png", "image/png", 20971520⟩ false] ∧
    passesGate ⟨.null, 15 * 1024 * 1024, true⟩ ⟨"cropped-image.png", "image/png", 20971520⟩
      = false ∧
    uploads
      (handleCropComplete defaultServerBaseUrl ⟨.null, 15 * 1024 * 1024, true⟩
        ⟨"cropped-image.png", "image/png", 20971520⟩ false none
        (.resolved ⟨"success", "/uploads/n.png", none⟩)
        (handleFileSelect defaultServerBaseUrl ⟨.null, 15 * 1024 * 1024, true⟩ ⟨1⟩
          ⟨"a.jpg", "image/jpeg", 10485760⟩ none (.rejected "")
          (initialState defaultServerBaseUrl ⟨.null, 15 * 1024 * 1024, true⟩)).1).2
      = [⟨"cropped-image.png", "image/png", 20971520⟩] := by
  refine ⟨by decide, by decide, by decide⟩

/-- C27, amended: every file that `handleFileSelect` hands to `uploadImage`
(the direct path) passes the validation gate for the configured `maxSize`;
`handleCropComplete` uploads the file it receives from the cropper as it is,
without a check: that file has the type `image/png`, which passes the type
test, and a size the gate has not seen. -/
theorem direct_uploads_pass_gate (base : String) (p : Props) (imageUrl : ObjectUrl)
    (file : File) (readerResult : Option String) (outcome : UploadOutcome) (s : State) :
    (∀ f ∈ uploads (handleFileSelect base p imageUrl file readerResult outcome s).2,
      f = file ∧ passesGate p f = true ∧
      startsWith f.type "image/" = true ∧ f.size ≤ p.maxSize) ∧
    (∀ (croppedFile : File) (isOriginal : Bool),
      uploads (handleCropComplete base p croppedFile isOriginal readerResult outcome s).2
        = [croppedFile]) ∧
    (∀ (crop : Crop) (size : Nat) (f : File) (isOriginal : Bool),
      CropperEffect.onCropComplete f isOriginal
          ∈ handleApplyCrop (some crop) true (some size) ++ useFullImage (some size) →
        f.type = "image/png" ∧ f.size = size ∧ startsWith f.type "image/" = true) := by
  refine ⟨?_, ?_, ?_⟩
  · intro f hf
    by_cases hv : (validateFile p file s).1 = true
    · have hgate := (validateFile_gate p file s).mp hv
      by_cases hc : p.enableCropping = true
      · simp [handleFileSelect, hv, hc, prepareImageForCropping, uploads] at hf
        split at hf <;> simp at hf
      · have hup : uploads (handleFileSelect base p imageUrl file readerResult outcome s).2
            = [file] := by
          cases outcome with
          | rejected m => simp [handleFileSelect, hv, hc, uploads, uploadTryCatch, uploadTry]
          | resolved r =>
            by_cases hs : r.status = "success" <;>
              simp [handleFileSelect, hv, hc, uploads, uploadTryCatch, uploadTry, hs]
        rw [hup] at hf
        have hfe : f = file := by simpa using hf
        subst hfe
        exact ⟨rfl, by simp [passesGate, hgate.1, hgate.2], hgate.1, hgate.2⟩
    · simp [handleFileSelect, hv, uploads] at hf
  · intro croppedFile isOriginal
    cases outcome with
    | rejected m =>
      cases h : s.tempImageUrl <;>
        simp [handleCropComplete, handleCropCompleteStart, handleCropCompleteSettle,
          handleCropCompleteFinally, uploads, uploadTryCatch, uploadTry, h]
    | resolved r =>
      by_cases hs : r.status = "success" <;> cases h : s.tempImageUrl <;>
        simp [handleCropComplete, handleCropCompleteStart, handleCropCompleteSettle,
          handleCropCompleteFinally, uploads, uploadTryCatch, uploadTry, h, hs]
  · intro crop size f isOriginal hmem
    have hpng : startsWith "image/png" "image/" = true := by decide
    simp [handleApplyCrop, useFullImage] at hmem
    rcases hmem with ⟨h1, -⟩ | ⟨h1, -⟩ <;> subst h1 <;> exact ⟨rfl, rfl, hpng⟩

/-- C28 fails on the code: with `currentImage = {url: '', alt: ''}` (the value
`handleRemoveImage` hands to the caller) the freshly mounted control has a
null preview, and after one direct upload that is rejected the `catch` block
has put the object itself into `preview`. -/
theorem preview_becomes_object :
    usableAsSrc (initialState defaultServerBaseUrl
      ⟨.obj "" "", 15 * 1024 * 1024, false⟩).preview = true ∧
    (handleFileSelect defaultServerBaseUrl ⟨.obj "" "", 15 * 1024 * 1024, false⟩ ⟨0⟩
      ⟨"a.png", "image/png", 1000⟩ (some "data:image/png;base64,AAAA")
      (.rejected "Network error")
      (initialState defaultServerBaseUrl ⟨.obj "" "", 15 * 1024 * 1024, false⟩)).1.preview
      = .obj "" "" ∧
    usableAsSrc
      (handleFileSelect defaultServerBaseUrl ⟨.obj "" "", 15 * 1024 * 1024, false⟩ ⟨0⟩
        ⟨"a.png", "image/png", 1000⟩ (some "data:image/png;base64,AAAA")
        (.rejected "Network error")
        (initialState defaultServerBaseUrl ⟨.obj "" "", 15 * 1024 * 1024, false⟩)).1.preview
      = false := by
  refine ⟨by decide, by decide, by decide⟩

/-- A text that starts with `p` still starts with `p` when more is appended. -/
theorem startsWith_append (s t p : String) (h : startsWith s p = true) :
    startsWith (s ++ t) p = true := by
  unfold startsWith at *
  rw [List.isPrefixOf_iff_prefix] at *
  rw [String.data_append]
  exact h.trans (List.prefix_append _ _)

/-- C29: whenever `SERVER_BASE_URL` starts with `http`, `formatImageUrl` is
idempotent: formatting an already formatted URL leaves it as it is. -/
theorem formatImageUrl_idempotent (base u : String) (hbase : startsWith base "http" = true) :
    formatImageUrl base (formatImageUrl base u) = formatImageUrl base u := by
  have hfix : ∀ v : String, startsWith v "http" = true → formatImageUrl base v = v := by
    intro v hv
    have ht : truthy v = true := truthy_of_startsWith v "http" (by decide) hv
    simp [formatImageUrl, ht, hv]
  by_cases ht : truthy u = true
  · by_cases hh : startsWith u "http" = true
    · rw [hfix u hh, hfix u hh]
    · by_cases hs : startsWith u "/" = true
      · have e : formatImageUrl base u = base ++ u := by
          simp [formatImageUrl, ht, hh, hs]
        rw [e]
        exact hfix _ (startsWith_append base u "http" hbase)
      · have e : formatImageUrl base u = base ++ "/" ++ u := by
          simp [formatImageUrl, ht, hh, hs]
        rw [e]
        exact hfix _ (startsWith_append _ u "http" (startsWith_append base "/" "http" hbase))
  · have e : formatImageUrl base u = "" := by
      simp [formatImageUrl, ht]
    rw [e]
    simp [formatImageUrl, truthy]

/-- Witness of C29: the default server base URL and a relative path. -/
theorem formatImageUrl_idempotent_witness :
    startsWith defaultServerBaseUrl "http" = true ∧
    formatImageUrl defaultServerBaseUrl (formatImageUrl defaultServerBaseUrl "uploads/a.png")
      = formatImageUrl defaultServerBaseUrl "uploads/a.png" :=
  ⟨by decide, formatImageUrl_idempotent defaultServerBaseUrl "uploads/a.png" (by decide)⟩

/-! ### ProjectsManager: the `technologies` round trip -/

theorem splitChars_comma_free (a : List Char) (ha : ',' ∉ a) : splitChars ',' a = [a] := by
  induction a with
  | nil => rfl
  | cons c cs ih =>
    have hc : c ≠ ',' := fun h => ha (by simp [h])
    have hcs : ',' ∉ cs := fun h => ha (by simp [h])
    simp [splitChars, hc, ih hcs]

theorem splitChars_append_comma (a rest : List Char) (ha : ',' ∉ a) :
    splitChars ',' (a ++ ',' :: rest) = a :: splitChars ',' rest := by
  induction a with
  | nil => simp [splitChars]
  | cons c cs ih =>
    have hc : c ≠ ',' := fun h => ha (by simp [h])
    have hcs : ',' ∉ cs := fun h => ha (by simp [h])
    simp [splitChars, hc, ih hcs]

/-- Splitting a joined list of comma-free pieces gives the pieces back, all
but the first with the blank of the separator in front. -/
theorem splitChars_joinChars (a : List Char) (rest : List (List Char))
    (hfree : ∀ b ∈ a :: rest, ',' ∉ b) :
    splitChars ',' (joinChars (a :: rest)) = a :: rest.map (fun b => ' ' :: b) := by
  induction rest generalizing a with
  | nil =>
    simpa [joinChars] using splitChars_comma_free a (hfree a (by simp))
  | cons b r ih =>
    have ha : ',' ∉ a := hfree a (by simp)
    have hr : ∀ c ∈ b :: r, ',' ∉ c := fun c hc => hfree c (by simp at hc ⊢; tauto)
    have hblank : (' ' : Char) ≠ ',' := by decide
    simp only [joinChars]
    rw [splitChars_append_comma a _ ha]
    simp [splitChars, hblank, ih b hr]

theorem trimChars_blank_cons (b : List Char) : trimChars (' ' :: b) = trimChars b := by
  have hws : isJsWhitespace ' ' = true := by decide
  simp [trimChars, List.dropWhile, hws]

/-- For a list that is not empty, of trimmed, comma-free technologies,
`handleSubmit` undoes `handleEdit`. -/
theorem technologies_round_trip_nonempty (technologies : List String)
    (hne : technologies ≠ [])
    (hgood : ∀ t ∈ technologies, jsTrim t = t ∧ ',' ∉ t.data) :
    handleSubmitTechnologies (handleEditTechnologies technologies) = technologies := by
  cases technologies with
  | nil => exact absurd rfl hne
  | cons a rest =>
    have hfree : ∀ b ∈ a.data :: rest.map String.data, ',' ∉ b := by
      intro b hb
      simp only [List.mem_cons, List.mem_map] at hb
      rcases hb with rfl | ⟨t, ht, rfl⟩
      · exact (hgood a (by simp)).2
      · exact (hgood t (by simp [ht])).2
    have htrim : ∀ t ∈ a :: rest, trimChars t.data = t.data := by
      intro t ht
      have h := (hgood t ht).1
      unfold jsTrim at h
      exact congrArg String.data h
    unfold handleSubmitTechnologies handleEditTechnologies jsSplitComma jsJoinCommaSpace
    simp only [List.map_cons]
    rw [splitChars_joinChars a.data (rest.map String.data) hfree]
    simp only [List.map_cons, List.map_map, List.cons.injEq]
    constructor
    · show jsTrim (String.mk a.data) = a
      exact (hgood a (by simp)).1
    · have hrest : ∀ t ∈ rest,
          (jsTrim ∘ String.mk ∘ (fun b => ' ' :: b) ∘ String.data) t = id t := by
        intro t ht
        show String.mk (trimChars (' ' :: t.data)) = t
        rw [trimChars_blank_cons, htrim t (by simp [ht])]
      rw [List.map_congr_left hrest]
      simp

/-- C30, as stated, fails for the empty list: `handleEdit` puts `''` into the
form, the `required` technologies input then stops the submit, and nothing is
sent, so the empty list is not sent back; `handleSubmit` itself would turn the
empty field into `['']`. -/
theorem technologies_round_trip_empty :
    handleEditTechnologies [] = "" ∧
    submitTechnologies true (handleEditTechnologies []) = none ∧
    submitTechnologies true (handleEditTechnologies []) ≠ some [] ∧
    handleSubmitTechnologies (handleEditTechnologies []) = [""] ∧
    handleSubmitTechnologies (handleEditTechnologies []) ≠ [] := by
  refine ⟨by decide, by decide, by decide, by decide, by decide⟩

/-! ### Double arithmetic -/

theorem roundHalfEven_abs_sub_le (x : ℚ) : |(roundHalfEven x : ℚ) - x| ≤ 1 / 2 := by
  have h1 := Int.floor_le x
  have h2 := Int.lt_floor_add_one x
  unfold roundHalfEven
  rw [abs_le]
  split_ifs <;> push_cast <;> constructor <;> linarith

theorem roundHalfEven_eq (x : ℚ) (m : ℤ) (h : |x - m| < 1 / 2) : roundHalfEven x = m := by
  rw [abs_lt] at h
  have h1 := Int.floor_le x
  have h2 := Int.lt_floor_add_one x
  have hcases : ⌊x⌋ = m ∨ ⌊x⌋ = m - 1 := by
    have ha : (⌊x⌋ : ℚ) < m + 1 := by linarith
    have hb : (m : ℚ) - 2 < ⌊x⌋ := by linarith
    have ha' : ⌊x⌋ < m + 1 := by exact_mod_cast ha
    have hb' : m - 2 < ⌊x⌋ := by exact_mod_cast hb
    omega
  unfold roundHalfEven
  rcases hcases with hf | hf
  · have : x - (⌊x⌋ : ℚ) < 1 / 2 := by rw [hf]; linarith
    rw [if_pos this, hf]
  · have hfq : (⌊x⌋ : ℚ) = m - 1 := by rw [hf]; push_cast; ring
    have h3 : ¬ (x - (⌊x⌋ : ℚ) < 1 / 2) := by rw [hfq]; intro h4; linarith
    have h4 : 1 / 2 < x - (⌊x⌋ : ℚ) := by rw [hfq]; linarith
    rw [if_neg h3, if_pos h4, hf]; ring

theorem log_two_eq (q : ℚ) (e : ℤ) (hq : 0 < q) (hlo : (2 : ℚ) ^ e ≤ q) (hhi : q < 2 ^ (e + 1)) :
    Int.log 2 q = e := by
  apply le_antisymm
  · have := (Int.lt_zpow_iff_log_lt (b := 2) (by norm_num) hq (x := e + 1)).mp
      (by exact_mod_cast hhi)
    omega
  · exact (Int.zpow_le_iff_le_log (b := 2) (by norm_num) hq).mp (by exact_mod_cast hlo)

/-- How a double is computed by hand: for `2^e <= |q| < 2^(e + 1)` in the
normal range, `toDouble q` is `m * 2^(e - 52)` for the whole number `m` within
one half of `q / 2^(e - 52)`. -/
theorem toDouble_eq (q : ℚ) (e m : ℤ) (hlo : (2 : ℚ) ^ e ≤ |q|) (hhi : |q| < 2 ^ (e + 1))
    (he : -1022 ≤ e) (hm : |q / 2 ^ (e - 52) - m| < 1 / 2) :
    toDouble q = m * 2 ^ (e - 52) := by
  have hpos : 0 < |q| := lt_of_lt_of_le (by positivity) hlo
  have hu : ulp q = 2 ^ (e - 52) := by
    unfold ulp
    rw [log_two_eq |q| e hpos hlo hhi, max_eq_left he]
  unfold toDouble
  rw [hu, roundHalfEven_eq _ m hm]

theorem toDouble_zero : toDouble 0 = 0 := by
  simp [toDouble, roundHalfEven]

theorem toDouble_one : toDouble 1 = 1 := by
  rw [toDouble_eq 1 0 (2 ^ 52) (by norm_num) (by norm_num) (by norm_num) (by norm_num)]
  norm_num

/-- Rounding to a double has relative error at most `2^(-53)` in the normal
range. -/
theorem toDouble_error (q : ℚ) (h : inNormalRange q) :
    |toDouble q - q| ≤ unitRoundoff * |q| := by
  rcases h with h0 | ⟨hlo, -⟩
  · subst h0
    simp [toDouble_zero]
  · have hpos : 0 < |q| := lt_of_lt_of_le (by positivity) hlo
    have hlog : (2 : ℚ) ^ Int.log 2 |q| ≤ |q| := by
      have := Int.zpow_log_le_self (b := 2) (r := |q|) (by norm_num) hpos
      exact_mod_cast this
    have he : -1022 ≤ Int.log 2 |q| :=
      (Int.zpow_le_iff_le_log (b := 2) (by norm_num) hpos).mp (by exact_mod_cast hlo)
    have hu : ulp q = 2 ^ Int.log 2 |q| / 2 ^ (52 : ℤ) := by
      unfold ulp
      rw [max_eq_left he, zpow_sub₀ (by norm_num)]
    have hupos : 0 < ulp q := by rw [hu]; positivity
    have hr := roundHalfEven_abs_sub_le (q / ulp q)
    have hsplit : toDouble q - q = ((roundHalfEven (q / ulp q) : ℚ) - q / ulp q) * ulp q := by
      unfold toDouble
      field_simp
    rw [hsplit, abs_mul, abs_of_pos hupos]
    calc |(roundHalfEven (q / ulp q) : ℚ) - q / ulp q| * ulp q
        ≤ 1 / 2 * ulp q := mul_le_mul_of_nonneg_right hr hupos.le
      _ = unitRoundoff * 2 ^ Int.log 2 |q| := by
          rw [hu, unitRoundoff]; norm_num; ring
      _ ≤ unitRoundoff * |q| := by
          apply mul_le_mul_of_nonneg_left hlog
          unfold unitRoundoff; positivity

/-- The double of a non-negative result lies within a factor `1 - 2^(-53)`
and `1 + 2^(-53)` of it. -/
theorem toDouble_bounds (q : ℚ) (hq : 0 ≤ q) (h : inNormalRange q) :
    q * (1 - unitRoundoff) ≤ toDouble q ∧ toDouble q ≤ q * (1 + unitRoundoff) := by
  have herr := toDouble_error q h
  rw [abs_of_nonneg hq, abs_le] at herr
  constructor <;> nlinarith [herr.1, herr.2]

theorem unitRoundoff_pos : 0 < unitRoundoff := by
  unfold unitRoundoff; positivity

theorem unitRoundoff_lt_one : unitRoundoff < 1 := by
  unfold unitRoundoff; norm_num

/-! ### Raster extraction in double arithmetic -/

/-- A non-negative number times a positive scale, both rounded as the code
rounds them, stays within the factors `(1 - 2^(-53))^2` and `(1 + 2^(-53))^2`
of the exact product. -/
theorem scaled_bounds (a x : ℚ) (ha : 0 < a) (hx : 0 ≤ x) (hra : inNormalRange a)
    (hrx : inNormalRange (x * toDouble a)) :
    0 ≤ toDouble (x * toDouble a) ∧
    x * a * (1 - unitRoundoff) ^ 2 ≤ toDouble (x * toDouble a) ∧
    toDouble (x * toDouble a) ≤ x * a * (1 + unitRoundoff) ^ 2 := by
  have hu0 := unitRoundoff_pos
  have hu1 := unitRoundoff_lt_one
  obtain ⟨hs1, hs2⟩ := toDouble_bounds a ha.le hra
  have hs0 : 0 ≤ toDouble a := le_trans (mul_nonneg ha.le (by linarith)) hs1
  have hp0 : 0 ≤ x * toDouble a := mul_nonneg hx hs0
  obtain ⟨ht1, ht2⟩ := toDouble_bounds (x * toDouble a) hp0 hrx
  have hlow : x * a * (1 - unitRoundoff) ^ 2 ≤ x * toDouble a * (1 - unitRoundoff) := by
    have h1 : x * (a * (1 - unitRoundoff)) ≤ x * toDouble a := mul_le_mul_of_nonneg_left hs1 hx
    have h2 := mul_le_mul_of_nonneg_right h1 (by linarith : (0 : ℚ) ≤ 1 - unitRoundoff)
    calc x * a * (1 - unitRoundoff) ^ 2 = x * (a * (1 - unitRoundoff)) * (1 - unitRoundoff) := by
          ring
      _ ≤ x * toDouble a * (1 - unitRoundoff) := h2
  have hhigh : x * toDouble a * (1 + unitRoundoff) ≤ x * a * (1 + unitRoundoff) ^ 2 := by
    have h1 : x * toDouble a ≤ x * (a * (1 + unitRoundoff)) := mul_le_mul_of_nonneg_left hs2 hx
    have h2 := mul_le_mul_of_nonneg_right h1 (by linarith : (0 : ℚ) ≤ 1 + unitRoundoff)
    calc x * toDouble a * (1 + unitRoundoff) ≤ x * (a * (1 + unitRoundoff)) * (1 + unitRoundoff) :=
          h2
      _ = x * a * (1 + unitRoundoff) ^ 2 := by ring
  refine ⟨?_, le_trans hlow ht1, le_trans ht2 hhigh⟩
  exact le_trans (mul_nonneg hp0 (by linarith)) ht1

/-- A negative number times a positive scale is still negative after both
roundings. -/
theorem scaled_neg (a x : ℚ) (ha : 0 < a) (hx : x < 0) (hra : inNormalRange a)
    (hrx : inNormalRange (x * toDouble a)) :
    toDouble (x * toDouble a) < 0 := by
  have hu0 := unitRoundoff_pos
  have hu1 := unitRoundoff_lt_one
  obtain ⟨hs1, -⟩ := toDouble_bounds a ha.le hra
  have hs0 : 0 < toDouble a := lt_of_lt_of_le (mul_pos ha (by linarith)) hs1
  have hp : x * toDouble a < 0 := mul_neg_of_neg_of_pos hx hs0
  have herr := toDouble_error (x * toDouble a) hrx
  rw [abs_of_neg hp, abs_le] at herr
  nlinarith [herr.2]

/-- At natural size the scale factor is exactly 1. -/
theorem scale_at_natural_size (n w : ℚ) (hw : 0 < w) (h : w = n) : toDouble (n / w) = 1 := by
  subst h
  rw [div_self (ne_of_gt hw), toDouble_one]

/-- The double of `1000 / 102`, the scale of an image 102 wide with natural
width 1000. -/
theorem toDouble_1000_div_102 :
    toDouble (1000 / 102) = 1379779297601255 / 140737488355328 := by
  rw [toDouble_eq (1000 / 102) 3 5519117190405020 (by norm_num [abs_of_pos])
    (by norm_num [abs_of_pos]) (by norm_num) (by norm_num [abs_lt])]
  norm_num

/-- Magnitudes from 1 up to `2^64` are in the normal range. -/
theorem inNormalRange_of_bounds (y : ℚ) (hlo : 1 ≤ |y|) (hhi : |y| ≤ 2 ^ 64) :
    inNormalRange y := by
  right
  constructor
  · refine le_trans ?_ hlo
    rw [zpow_neg]
    apply inv_le_one_of_one_le₀
    exact one_le_zpow₀ (by norm_num) (by norm_num)
  · refine lt_of_le_of_lt hhi ?_
    have h : ((2 : ℚ) ^ (64 : ℕ)) = (2 : ℚ) ^ (64 : ℤ) := by norm_cast
    rw [h]
    exact zpow_lt_zpow_right₀ (by norm_num) (by norm_num)

/-- C15, as stated, fails in the double arithmetic of the code: a completed
crop 68 wide at `x = 34` lies within an image displayed 102 wide, `34 + 68 =
102`; with the natural width 1000 the scale is the double of `1000 / 102`, and
the source rectangle starts at `333.33333333333337` and is `666.6666666666667`
wide, so it ends beyond 1000. -/
theorem source_rectangle_overshoots_natural :
    ((0 : ℚ) ≤ 34 ∧ (0 : ℚ) ≤ 0 ∧ (34 : ℚ) + 68 ≤ 102 ∧ (0 : ℚ) + 100 ≤ 100) ∧
    extractionEffectDouble (some ⟨.px, 34, 0, 68, 100⟩) (some ⟨102, 100, 1000, 100⟩) true 1
      = some (extractDouble ⟨102, 100, 1000, 100⟩ 1 ⟨.px, 34, 0, 68, 100⟩) ∧
    (extractDouble ⟨102, 100, 1000, 100⟩ 1 ⟨.px, 34, 0, 68, 100⟩).sx
      = 2932031007402667 / 8796093022208 ∧
    (extractDouble ⟨102, 100, 1000, 100⟩ 1 ⟨.px, 34, 0, 68, 100⟩).sWidth
      = 2932031007402667 / 4398046511104 ∧
    ¬ ((extractDouble ⟨102, 100, 1000, 100⟩ 1 ⟨.px, 34, 0, 68, 100⟩).sx
        + (extractDouble ⟨102, 100, 1000, 100⟩ 1 ⟨.px, 34, 0, 68, 100⟩).sWidth
      ≤ (⟨102, 100, 1000, 100⟩ : ImageElement).naturalWidth) := by
  have hs := toDouble_1000_div_102
  have hx : (extractDouble ⟨102, 100, 1000, 100⟩ 1 ⟨.px, 34, 0, 68, 100⟩).sx
      = 2932031007402667 / 8796093022208 := by
    show toDouble (34 * toDouble (1000 / 102)) = _
    rw [hs, toDouble_eq _ 8 5864062014805334 (by norm_num [abs_of_pos])
      (by norm_num [abs_of_pos]) (by norm_num) (by norm_num [abs_lt])]
    norm_num
  have hw : (extractDouble ⟨102, 100, 1000, 100⟩ 1 ⟨.px, 34, 0, 68, 100⟩).sWidth
      = 2932031007402667 / 4398046511104 := by
    show toDouble (68 * toDouble (1000 / 102)) = _
    rw [hs, toDouble_eq _ 9 5864062014805334 (by norm_num [abs_of_pos])
      (by norm_num [abs_of_pos]) (by norm_num) (by norm_num [abs_lt])]
    norm_num
  refine ⟨by norm_num, rfl, hx, hw, ?_⟩
  rw [hx, hw]
  norm_num

/-- C15, amended: for a completed crop of non-negative width and height that
lies within the displayed image, positive displayed and natural dimensions and
no underflow or overflow, the source rectangle handed to `drawImage` has
`0 <= cropX`, `0 <= cropY`, and lies within the natural image up to the
rounding of the double arithmetic: `cropX + cropWidth` is at most
`naturalWidth * (1 + 2^(-53))^2`, `cropY + cropHeight` at most
`naturalHeight * (1 + 2^(-53))^2`. It lies within the natural image exactly
when the image is displayed at its natural size. -/
theorem source_rectangle_within_rounded (crop : Crop) (image : ImageElement) (pixelRatio : ℚ)
    (hx : 0 ≤ crop.x) (hy : 0 ≤ crop.y) (hwidth : 0 ≤ crop.width) (hheight : 0 ≤ crop.height)
    (hright : crop.x + crop.width ≤ image.width)
    (hbottom : crop.y + crop.height ≤ image.height)
    (hw : 0 < image.width) (hh : 0 < image.height)
    (hnw : 0 < image.naturalWidth) (hnh : 0 < image.naturalHeight)
    (hrange : sourceInRange image crop) :
    extractionEffectDouble (some crop) (some image) true pixelRatio
      = some (extractDouble image pixelRatio crop) ∧
    0 ≤ (extractDouble image pixelRatio crop).sx ∧
    0 ≤ (extractDouble image pixelRatio crop).sy ∧
    (extractDouble image pixelRatio crop).sx + (extractDouble image pixelRatio crop).sWidth
      ≤ image.naturalWidth * (1 + unitRoundoff) ^ 2 ∧
    (extractDouble image pixelRatio crop).sy + (extractDouble image pixelRatio crop).sHeight
      ≤ image.naturalHeight * (1 + unitRoundoff) ^ 2 ∧
    (atNaturalSize image → isDouble crop.x → isDouble crop.y → isDouble crop.width →
      isDouble crop.height →
      (extractDouble image pixelRatio crop).sx + (extractDouble image pixelRatio crop).sWidth
        ≤ image.naturalWidth ∧
      (extractDouble image pixelRatio crop).sy + (extractDouble image pixelRatio crop).sHeight
        ≤ image.naturalHeight) := by
  obtain ⟨rax, ray, rx, ry, rwidth, rheight⟩ := hrange
  have hax : 0 < image.naturalWidth / image.width := div_pos hnw hw
  have hay : 0 < image.naturalHeight / image.height := div_pos hnh hh
  obtain ⟨bx0, -, bx2⟩ := scaled_bounds _ crop.x hax hx rax rx
  obtain ⟨by0, -, by2⟩ := scaled_bounds _ crop.y hay hy ray ry
  obtain ⟨-, -, bw2⟩ := scaled_bounds _ crop.width hax hwidth rax rwidth
  obtain ⟨-, -, bh2⟩ := scaled_bounds _ crop.height hay hheight ray rheight
  have hpos : (0 : ℚ) ≤ (1 + unitRoundoff) ^ 2 := by positivity
  have ex : image.width * (image.naturalWidth / image.width) = image.naturalWidth := by
    field_simp
  have ey : image.height * (image.naturalHeight / image.height) = image.naturalHeight := by
    field_simp
  refine ⟨rfl, bx0, by0, ?_, ?_, ?_⟩
  · show toDouble (crop.x * toDouble (image.naturalWidth / image.width))
        + toDouble (crop.width * toDouble (image.naturalWidth / image.width)) ≤ _
    calc toDouble (crop.x * toDouble (image.naturalWidth / image.width))
          + toDouble (crop.width * toDouble (image.naturalWidth / image.width))
        ≤ crop.x * (image.naturalWidth / image.width) * (1 + unitRoundoff) ^ 2
          + crop.width * (image.naturalWidth / image.width) * (1 + unitRoundoff) ^ 2 :=
          add_le_add bx2 bw2
      _ = (crop.x + crop.width) * (image.naturalWidth / image.width)
          * (1 + unitRoundoff) ^ 2 := by ring
      _ ≤ image.width * (image.naturalWidth / image.width) * (1 + unitRoundoff) ^ 2 :=
          mul_le_mul_of_nonneg_right (mul_le_mul_of_nonneg_right hright hax.le) hpos
      _ = image.naturalWidth * (1 + unitRoundoff) ^ 2 := by rw [ex]
  · show toDouble (crop.y * toDouble (image.naturalHeight / image.height))
        + toDouble (crop.height * toDouble (image.naturalHeight / image.height)) ≤ _
    calc toDouble (crop.y * toDouble (image.naturalHeight / image.height))
          + toDouble (crop.height * toDouble (image.naturalHeight / image.height))
        ≤ crop.y * (image.naturalHeight / image.height) * (1 + unitRoundoff) ^ 2
          + crop.height * (image.naturalHeight / image.height) * (1 + unitRoundoff) ^ 2 :=
          add_le_add by2 bh2
      _ = (crop.y + crop.height) * (image.naturalHeight / image.height)
          * (1 + unitRoundoff) ^ 2 := by ring
      _ ≤ image.height * (image.naturalHeight / image.height) * (1 + unitRoundoff) ^ 2 :=
          mul_le_mul_of_nonneg_right (mul_le_mul_of_nonneg_right hbottom hay.le) hpos
      _ = image.naturalHeight * (1 + unitRoundoff) ^ 2 := by rw [ey]
  · rintro ⟨hnx, hny⟩ dx dy dwidth dheight
    have sx1 := scale_at_natural_size image.naturalWidth image.width hw hnx
    have sy1 := scale_at_natural_size image.naturalHeight image.height hh hny
    unfold isDouble at dx dy dwidth dheight
    constructor
    · show toDouble (crop.x * toDouble (image.naturalWidth / image.width))
          + toDouble (crop.width * toDouble (image.naturalWidth / image.width)) ≤ _
      rw [sx1, mul_one, mul_one, dx, dwidth, ← hnx]
      exact hright
    · show toDouble (crop.y * toDouble (image.naturalHeight / image.height))
          + toDouble (crop.height * toDouble (image.naturalHeight / image.height)) ≤ _
      rw [sy1, mul_one, mul_one, dy, dheight, ← hny]
      exact hbottom

/-- Witness of C15 (amended): the crop 68 wide at `x = 34` of the image
displayed 102 wide with natural width 1000, where the exact bound fails. -/
theorem source_rectangle_within_rounded_witness :
    sourceInRange ⟨102, 100, 1000, 100⟩ ⟨.px, 34, 0, 68, 100⟩ ∧
    (extractDouble ⟨102, 100, 1000, 100⟩ 1 ⟨.px, 34, 0, 68, 100⟩).sx
        + (extractDouble ⟨102, 100, 1000, 100⟩ 1 ⟨.px, 34, 0, 68, 100⟩).sWidth
      ≤ (⟨102, 100, 1000, 100⟩ : ImageElement).naturalWidth * (1 + unitRoundoff) ^ 2 := by
  have hs := toDouble_1000_div_102
  have h1 : toDouble ((100 : ℚ) / 100) = 1 := scale_at_natural_size 100 100 (by norm_num) rfl
  have hrange : sourceInRange ⟨102, 100, 1000, 100⟩ ⟨.px, 34, 0, 68, 100⟩ := by
    refine ⟨?_, ?_, ?_, ?_, ?_, ?_⟩
    · exact inNormalRange_of_bounds _ (by norm_num [abs_of_pos]) (by norm_num [abs_of_pos])
    · exact inNormalRange_of_bounds _ (by norm_num) (by norm_num)
    · show inNormalRange (34 * toDouble (1000 / 102))
      rw [hs]
      exact inNormalRange_of_bounds _ (by norm_num [abs_of_pos]) (by norm_num [abs_of_pos])
    · left
      show (0 : ℚ) * toDouble (100 / 100) = 0
      simp
    · show inNormalRange (68 * toDouble (1000 / 102))
      rw [hs]
      exact inNormalRange_of_bounds _ (by norm_num [abs_of_pos]) (by norm_num [abs_of_pos])
    · show inNormalRange (100 * toDouble (100 / 100))
      rw [h1]
      exact inNormalRange_of_bounds _ (by norm_num) (by norm_num)
  exact ⟨hrange,
    (source_rectangle_within_rounded ⟨.px, 34, 0, 68, 100⟩ ⟨102, 100, 1000, 100⟩ 1
      (by norm_num) (by norm_num) (by norm_num) (by norm_num) (by norm_num) (by norm_num)
      (by norm_num) (by norm_num) (by norm_num) (by norm_num) hrange).2.2.2.1⟩

/-- Whole numbers that are doubles, computed by hand. -/
theorem toDouble_small_values :
    toDouble 2 = 2 ∧ toDouble 100 = 100 ∧ toDouble 150 = 150 ∧ toDouble 200 = 200 ∧
    toDouble 400 = 400 := by
  refine ⟨?_, ?_, ?_, ?_, ?_⟩
  · rw [toDouble_eq 2 1 (2 ^ 52) (by norm_num) (by norm_num) (by norm_num) (by norm_num)]
    norm_num
  · rw [toDouble_eq 100 6 (100 * 2 ^ 46) (by norm_num) (by norm_num) (by norm_num)
      (by norm_num)]
    norm_num
  · rw [toDouble_eq 150 7 (150 * 2 ^ 45) (by norm_num) (by norm_num) (by norm_num)
      (by norm_num)]
    norm_num
  · rw [toDouble_eq 200 7 (200 * 2 ^ 45) (by norm_num) (by norm_num) (by norm_num)
      (by norm_num)]
    norm_num
  · rw [toDouble_eq 400 8 (400 * 2 ^ 44) (by norm_num) (by norm_num) (by norm_num)
      (by norm_num)]
    norm_num

/-- C16, as stated, fails twice over. On a display with `devicePixelRatio = 2`
the identity crop of an image displayed at 100 x 100 with natural size
200 x 200 gives a canvas 400 wide, not the source's own 200. And with
`devicePixelRatio = 1` the identity crop of an image displayed at 333 x 333
with natural size 1000 x 1000 reads a source rectangle
`999.9999999999999` wide, the double of `333 * (1000 / 333)`, and the canvas
keeps 999. -/
theorem identity_crop_buffer_scaled :
    (extractDouble ⟨100, 100, 200, 200⟩ 2 ⟨.px, 0, 0, 100, 100⟩).sWidth = 200 ∧
    (extractDouble ⟨100, 100, 200, 200⟩ 2 ⟨.px, 0, 0, 100, 100⟩).canvasWidth = 400 ∧
    toUnsignedLong (extractDouble ⟨100, 100, 200, 200⟩ 2 ⟨.px, 0, 0, 100, 100⟩).canvasWidth
      = 400 ∧
    (extractDouble ⟨100, 100, 200, 200⟩ 2 ⟨.px, 0, 0, 100, 100⟩).canvasWidth
      ≠ (⟨100, 100, 200, 200⟩ : ImageElement).naturalWidth ∧
    (extractDouble ⟨333, 333, 1000, 1000⟩ 1 ⟨.px, 0, 0, 333, 333⟩).sWidth
      = 8796093022207999 / 8796093022208 ∧
    (extractDouble ⟨333, 333, 1000, 1000⟩ 1 ⟨.px, 0, 0, 333, 333⟩).sWidth
      ≠ (⟨333, 333, 1000, 1000⟩ : ImageElement).naturalWidth ∧
    toUnsignedLong (extractDouble ⟨333, 333, 1000, 1000⟩ 1 ⟨.px, 0, 0, 333, 333⟩).canvasWidth
      = 999 := by
  obtain ⟨h2, -, -, h200, h400⟩ := toDouble_small_values
  have hA : toDouble ((200 : ℚ) / 100) = 2 := by
    rw [show ((200 : ℚ) / 100) = 2 by norm_num, h2]
  have hAw : (extractDouble ⟨100, 100, 200, 200⟩ 2 ⟨.px, 0, 0, 100, 100⟩).sWidth = 200 := by
    show toDouble (100 * toDouble (200 / 100)) = 200
    rw [hA, show ((100 : ℚ) * 2) = 200 by norm_num, h200]
  have hAc : (extractDouble ⟨100, 100, 200, 200⟩ 2 ⟨.px, 0, 0, 100, 100⟩).canvasWidth
      = 400 := by
    show toDouble (toDouble (100 * toDouble (200 / 100)) * 2) = 400
    rw [hA, show ((100 : ℚ) * 2) = 200 by norm_num, h200,
      show ((200 : ℚ) * 2) = 400 by norm_num, h400]
  have hB : toDouble ((1000 : ℚ) / 333) = 3381080801329201 / 1125899906842624 := by
    rw [toDouble_eq (1000 / 333) 1 6762161602658402 (by norm_num [abs_of_pos])
      (by norm_num [abs_of_pos]) (by norm_num) (by norm_num [abs_lt])]
    norm_num
  have hBp : toDouble (333 * (3381080801329201 / 1125899906842624))
      = 8796093022207999 / 8796093022208 := by
    rw [toDouble_eq _ 9 8796093022207999 (by norm_num [abs_of_pos])
      (by norm_num [abs_of_pos]) (by norm_num) (by norm_num [abs_lt])]
    norm_num
  have hBw : (extractDouble ⟨333, 333, 1000, 1000⟩ 1 ⟨.px, 0, 0, 333, 333⟩).sWidth
      = 8796093022207999 / 8796093022208 := by
    show toDouble (333 * toDouble (1000 / 333)) = _
    rw [hB, hBp]
  have hBc : (extractDouble ⟨333, 333, 1000, 1000⟩ 1 ⟨.px, 0, 0, 333, 333⟩).canvasWidth
      = 8796093022207999 / 8796093022208 := by
    show toDouble (toDouble (333 * toDouble (1000 / 333)) * 1) = _
    rw [hB, hBp, mul_one]
    rw [toDouble_eq _ 9 8796093022207999 (by norm_num [abs_of_pos])
      (by norm_num [abs_of_pos]) (by norm_num) (by norm_num [abs_lt])]
    norm_num
  refine ⟨hAw, hAc, ?_, ?_, hBw, ?_, ?_⟩
  · rw [hAc, toUnsignedLong_of_range _ (by norm_num) (by norm_num), Int.floor_eq_iff]; norm_num
  · rw [hAc]; norm_num
  · rw [hBw]; norm_num
  · rw [hBc, toUnsignedLong_of_range _ (by norm_num) (by norm_num), Int.floor_eq_iff]; norm_num

/-- C16, amended: for a completed crop equal to the whole displayed image (of
positive displayed size) the extraction reads the source rectangle
`(0, 0, width * scaleX, height * scaleY)` and draws it, under
`ctx.scale(devicePixelRatio)`, onto the destination rectangle of the same size
at the origin, on a canvas sized by that rectangle times `devicePixelRatio`.
The source rectangle is `(0, 0, naturalWidth, naturalHeight)` up to the
rounding of the double arithmetic, and exactly so when the image is displayed
at its natural size; when then `devicePixelRatio = 1`, the canvas has the
source's own dimensions and the source is drawn onto it unscaled at the origin,
so the buffer matches the source. -/
theorem identity_crop_extraction (image : ImageElement) (pixelRatio : ℚ)
    (hw : 0 < image.width) (hh : 0 < image.height) :
    extractionEffectDouble (some ⟨.px, 0, 0, image.width, image.height⟩) (some image) true
        pixelRatio
      = some (extractDouble image pixelRatio ⟨.px, 0, 0, image.width, image.height⟩) ∧
    (extractDouble image pixelRatio ⟨.px, 0, 0, image.width, image.height⟩).sx = 0 ∧
    (extractDouble image pixelRatio ⟨.px, 0, 0, image.width, image.height⟩).sy = 0 ∧
    (extractDouble image pixelRatio ⟨.px, 0, 0, image.width, image.height⟩).dx = 0 ∧
    (extractDouble image pixelRatio ⟨.px, 0, 0, image.width, image.height⟩).dy = 0 ∧
    (extractDouble image pixelRatio ⟨.px, 0, 0, image.width, image.height⟩).dWidth
      = (extractDouble image pixelRatio ⟨.px, 0, 0, image.width, image.height⟩).sWidth ∧
    (extractDouble image pixelRatio ⟨.px, 0, 0, image.width, image.height⟩).dHeight
      = (extractDouble image pixelRatio ⟨.px, 0, 0, image.width, image.height⟩).sHeight ∧
    (extractDouble image pixelRatio ⟨.px, 0, 0, image.width, image.height⟩).scale
      = pixelRatio ∧
    (extractDouble image pixelRatio ⟨.px, 0, 0, image.width, image.height⟩).canvasWidth
      = toDouble
        ((extractDouble image pixelRatio ⟨.px, 0, 0, image.width, image.height⟩).sWidth
          * pixelRatio) ∧
    (extractDouble image pixelRatio ⟨.px, 0, 0, image.width, image.height⟩).canvasHeight
      = toDouble
        ((extractDouble image pixelRatio ⟨.px, 0, 0, image.width, image.height⟩).sHeight
          * pixelRatio) ∧
    (0 < image.naturalWidth → 0 < image.naturalHeight →
      sourceInRange image ⟨.px, 0, 0, image.width, image.height⟩ →
      image.naturalWidth * (1 - unitRoundoff) ^ 2
        ≤ (extractDouble image pixelRatio ⟨.px, 0, 0, image.width, image.height⟩).sWidth ∧
      (extractDouble image pixelRatio ⟨.px, 0, 0, image.width, image.height⟩).sWidth
        ≤ image.naturalWidth * (1 + unitRoundoff) ^ 2 ∧
      image.naturalHeight * (1 - unitRoundoff) ^ 2
        ≤ (extractDouble image pixelRatio ⟨.px, 0, 0, image.width, image.height⟩).sHeight ∧
      (extractDouble image pixelRatio ⟨.px, 0, 0, image.width, image.height⟩).sHeight
        ≤ image.naturalHeight * (1 + unitRoundoff) ^ 2) ∧
    (atNaturalSize image → isDouble image.width → isDouble image.height →
      (extractDouble image pixelRatio ⟨.px, 0, 0, image.width, image.height⟩).sWidth
        = image.naturalWidth ∧
      (extractDouble image pixelRatio ⟨.px, 0, 0, image.width, image.height⟩).sHeight
        = image.naturalHeight ∧
      (pixelRatio = 1 →
        (extractDouble image pixelRatio ⟨.px, 0, 0, image.width, image.height⟩).canvasWidth
          = image.naturalWidth ∧
        (extractDouble image pixelRatio ⟨.px, 0, 0, image.width, image.height⟩).canvasHeight
          = image.naturalHeight)) := by
  have ex : image.width * (image.naturalWidth / image.width) = image.naturalWidth := by
    field_simp
  have ey : image.height * (image.naturalHeight / image.height) = image.naturalHeight := by
    field_simp
  refine ⟨rfl, ?_, ?_, rfl, rfl, rfl, rfl, rfl, rfl, rfl, ?_, ?_⟩
  · show toDouble (0 * toDouble (image.naturalWidth / image.width)) = 0
    rw [zero_mul, toDouble_zero]
  · show toDouble (0 * toDouble (image.naturalHeight / image.height)) = 0
    rw [zero_mul, toDouble_zero]
  · intro hnw hnh hrange
    obtain ⟨rax, ray, -, -, rwidth, rheight⟩ := hrange
    obtain ⟨-, bw1, bw2⟩ := scaled_bounds _ image.width (div_pos hnw hw) hw.le rax rwidth
    obtain ⟨-, bh1, bh2⟩ := scaled_bounds _ image.height (div_pos hnh hh) hh.le ray rheight
    rw [ex] at bw1 bw2
    rw [ey] at bh1 bh2
    exact ⟨bw1, bw2, bh1, bh2⟩
  · rintro ⟨hnx, hny⟩ dw dh
    have sx1 := scale_at_natural_size image.naturalWidth image.width hw hnx
    have sy1 := scale_at_natural_size image.naturalHeight image.height hh hny
    unfold isDouble at dw dh
    have e1 : (extractDouble image pixelRatio ⟨.px, 0, 0, image.width, image.height⟩).sWidth
        = image.naturalWidth := by
      show toDouble (image.width * toDouble (image.naturalWidth / image.width)) = _
      rw [sx1, mul_one, dw, hnx]
    have e2 : (extractDouble image pixelRatio ⟨.px, 0, 0, image.width, image.height⟩).sHeight
        = image.naturalHeight := by
      show toDouble (image.height * toDouble (image.naturalHeight / image.height)) = _
      rw [sy1, mul_one, dh, hny]
    refine ⟨e1, e2, ?_⟩
    intro hp
    subst hp
    constructor
    · show toDouble (toDouble (image.width * toDouble (image.naturalWidth / image.width)) * 1)
          = _
      rw [sx1, mul_one, mul_one, dw, dw, hnx]
    · show toDouble (toDouble (image.height * toDouble (image.naturalHeight / image.height)) * 1)
          = _
      rw [sy1, mul_one, mul_one, dh, dh, hny]

/-- Witness of C16 (amended): an image displayed at its natural size of
200 x 100. -/
theorem identity_crop_extraction_witness :
    ((0 : ℚ) < 200 ∧ (0 : ℚ) < 100) ∧
    (extractDouble ⟨200, 100, 200, 100⟩ 1 ⟨.px, 0, 0, 200, 100⟩).sx = 0 ∧
    (extractDouble ⟨200, 100, 200, 100⟩ 1 ⟨.px, 0, 0, 200, 100⟩).sWidth = 200 ∧
    (extractDouble ⟨200, 100, 200, 100⟩ 1 ⟨.px, 0, 0, 200, 100⟩).canvasWidth = 200 := by
  have h := identity_crop_extraction ⟨200, 100, 200, 100⟩ 1 (by norm_num) (by norm_num)
  have hnat := h.2.2.2.2.2.2.2.2.2.2.2 ⟨rfl, rfl⟩ toDouble_small_values.2.2.2.1
    toDouble_small_values.2.1
  exact ⟨⟨by norm_num, by norm_num⟩, h.2.1, hnat.1, (hnat.2.2 rfl).1⟩

/-- C25, as stated, fails: a completed crop 100 wide at `x = 150` on an image
displayed at its natural size of 200 x 100 reaches 50 pixels beyond the right
edge, and the source rectangle handed to `drawImage` still starts at 150 and
is 100 wide: it is not clamped to the natural width 200. -/
theorem source_rectangle_not_clamped :
    extractionEffectDouble (some ⟨.px, 150, 0, 100, 100⟩) (some ⟨200, 100, 200, 100⟩) true 1
      = some (extractDouble ⟨200, 100, 200, 100⟩ 1 ⟨.px, 150, 0, 100, 100⟩) ∧
    (extractDouble ⟨200, 100, 200, 100⟩ 1 ⟨.px, 150, 0, 100, 100⟩).sx = 150 ∧
    (extractDouble ⟨200, 100, 200, 100⟩ 1 ⟨.px, 150, 0, 100, 100⟩).sWidth = 100 ∧
    ¬ ((extractDouble ⟨200, 100, 200, 100⟩ 1 ⟨.px, 150, 0, 100, 100⟩).sx
        + (extractDouble ⟨200, 100, 200, 100⟩ 1 ⟨.px, 150, 0, 100, 100⟩).sWidth
      ≤ (⟨200, 100, 200, 100⟩ : ImageElement).naturalWidth) := by
  obtain ⟨-, h100, h150, -, -⟩ := toDouble_small_values
  have hs : toDouble ((200 : ℚ) / 200) = 1 := scale_at_natural_size 200 200 (by norm_num) rfl
  have hx : (extractDouble ⟨200, 100, 200, 100⟩ 1 ⟨.px, 150, 0, 100, 100⟩).sx = 150 := by
    show toDouble (150 * toDouble (200 / 200)) = 150
    rw [hs, mul_one, h150]
  have hw : (extractDouble ⟨200, 100, 200, 100⟩ 1 ⟨.px, 150, 0, 100, 100⟩).sWidth = 100 := by
    show toDouble (100 * toDouble (200 / 200)) = 100
    rw [hs, mul_one, h100]
  refine ⟨rfl, hx, hw, ?_⟩
  rw [hx, hw]
  norm_num

/-- C25, amended: the extraction does not clamp and does not raise. For
positive displayed and natural dimensions and no underflow or overflow it
hands `drawImage` the completed crop scaled by `naturalWidth / width` and
`naturalHeight / height` as the double arithmetic computes it: a crop that
starts left of or above the image gives a source rectangle that starts at a
negative coordinate, and a crop that reaches beyond the right or bottom edge of
the displayed image by more than the rounding, a factor `(1 - 2^(-53))^(-2)`,
gives a source rectangle that reaches beyond the natural image. For an image
displayed at its natural size the source rectangle is the completed crop
itself. -/
theorem source_rectangle_scaled_unclamped (crop : Crop) (image : ImageElement) (pixelRatio : ℚ)
    (hw : 0 < image.width) (hh : 0 < image.height)
    (hnw : 0 < image.naturalWidth) (hnh : 0 < image.naturalHeight)
    (hrange : sourceInRange image crop) :
    extractionEffectDouble (some crop) (some image) true pixelRatio
      = some (extractDouble image pixelRatio crop) ∧
    (extractDouble image pixelRatio crop).sx
      = toDouble (crop.x * toDouble (image.naturalWidth / image.width)) ∧
    (extractDouble image pixelRatio crop).sy
      = toDouble (crop.y * toDouble (image.naturalHeight / image.height)) ∧
    (extractDouble image pixelRatio crop).sWidth
      = toDouble (crop.width * toDouble (image.naturalWidth / image.width)) ∧
    (extractDouble image pixelRatio crop).sHeight
      = toDouble (crop.height * toDouble (image.naturalHeight / image.height)) ∧
    (crop.x < 0 → (extractDouble image pixelRatio crop).sx < 0) ∧
    (crop.y < 0 → (extractDouble image pixelRatio crop).sy < 0) ∧
    (0 ≤ crop.x → 0 ≤ crop.width →
      image.width < (crop.x + crop.width) * (1 - unitRoundoff) ^ 2 →
      image.naturalWidth
        < (extractDouble image pixelRatio crop).sx
          + (extractDouble image pixelRatio crop).sWidth) ∧
    (0 ≤ crop.y → 0 ≤ crop.height →
      image.height < (crop.y + crop.height) * (1 - unitRoundoff) ^ 2 →
      image.naturalHeight
        < (extractDouble image pixelRatio crop).sy
          + (extractDouble image pixelRatio crop).sHeight) ∧
    (atNaturalSize image → isDouble crop.x → isDouble crop.y → isDouble crop.width →
      isDouble crop.height →
      (extractDouble image pixelRatio crop).sx = crop.x ∧
      (extractDouble image pixelRatio crop).sy = crop.y ∧
      (extractDouble image pixelRatio crop).sWidth = crop.width ∧
      (extractDouble image pixelRatio crop).sHeight = crop.height) := by
  obtain ⟨rax, ray, rx, ry, rwidth, rheight⟩ := hrange
  have hax : 0 < image.naturalWidth / image.width := div_pos hnw hw
  have hay : 0 < image.naturalHeight / image.height := div_pos hnh hh
  have ex : image.width * (image.naturalWidth / image.width) = image.naturalWidth := by
    field_simp
  have ey : image.height * (image.naturalHeight / image.height) = image.naturalHeight := by
    field_simp
  refine ⟨rfl, rfl, rfl, rfl, rfl, ?_, ?_, ?_, ?_, ?_⟩
  · intro hneg
    exact scaled_neg _ crop.x hax hneg rax rx
  · intro hneg
    exact scaled_neg _ crop.y hay hneg ray ry
  · intro hx hwidth hbeyond
    obtain ⟨-, bx1, -⟩ := scaled_bounds _ crop.x hax hx rax rx
    obtain ⟨-, bw1, -⟩ := scaled_bounds _ crop.width hax hwidth rax rwidth
    show image.naturalWidth
      < toDouble (crop.x * toDouble (image.naturalWidth / image.width))
        + toDouble (crop.width * toDouble (image.naturalWidth / image.width))
    calc image.naturalWidth = image.width * (image.naturalWidth / image.width) := ex.symm
      _ < (crop.x + crop.width) * (1 - unitRoundoff) ^ 2
          * (image.naturalWidth / image.width) := mul_lt_mul_of_pos_right hbeyond hax
      _ = crop.x * (image.naturalWidth / image.width) * (1 - unitRoundoff) ^ 2
          + crop.width * (image.naturalWidth / image.width) * (1 - unitRoundoff) ^ 2 := by
          ring
      _ ≤ _ := add_le_add bx1 bw1
  · intro hy hheight hbeyond
    obtain ⟨-, by1, -⟩ := scaled_bounds _ crop.y hay hy ray ry
    obtain ⟨-, bh1, -⟩ := scaled_bounds _ crop.height hay hheight ray rheight
    show image.naturalHeight
      < toDouble (crop.y * toDouble (image.naturalHeight / image.height))
        + toDouble (crop.height * toDouble (image.naturalHeight / image.height))
    calc image.naturalHeight = image.height * (image.naturalHeight / image.height) := ey.symm
      _ < (crop.y + crop.height) * (1 - unitRoundoff) ^ 2
          * (image.naturalHeight / image.height) := mul_lt_mul_of_pos_right hbeyond hay
      _ = crop.y * (image.naturalHeight / image.height) * (1 - unitRoundoff) ^ 2
          + crop.height * (image.naturalHeight / image.height) * (1 - unitRoundoff) ^ 2 := by
          ring
      _ ≤ _ := add_le_add by1 bh1
  · rintro ⟨hnx, hny⟩ dx dy dwidth dheight
    have sx1 := scale_at_natural_size image.naturalWidth image.width hw hnx
    have sy1 := scale_at_natural_size image.naturalHeight image.height hh hny
    unfold isDouble at dx dy dwidth dheight
    refine ⟨?_, ?_, ?_, ?_⟩
    · show toDouble (crop.x * toDouble (image.naturalWidth / image.width)) = crop.x
      rw [sx1, mul_one, dx]
    · show toDouble (crop.y * toDouble (image.naturalHeight / image.height)) = crop.y
      rw [sy1, mul_one, dy]
    · show toDouble (crop.width * toDouble (image.naturalWidth / image.width)) = crop.width
      rw [sx1, mul_one, dwidth]
    · show toDouble (crop.height * toDouble (image.naturalHeight / image.height)) = crop.height
      rw [sy1, mul_one, dheight]

/-- Witness of C25 (amended): the crop reaching beyond the right edge of an
image displayed at its natural size. -/
theorem source_rectangle_scaled_unclamped_witness :
    sourceInRange ⟨200, 100, 200, 100⟩ ⟨.px, 150, 0, 100, 100⟩ ∧
    (⟨200, 100, 200, 100⟩ : ImageElement).naturalWidth
      < (extractDouble ⟨200, 100, 200, 100⟩ 1 ⟨.px, 150, 0, 100, 100⟩).sx
        + (extractDouble ⟨200, 100, 200, 100⟩ 1 ⟨.px, 150, 0, 100, 100⟩).sWidth := by
  have h1 : toDouble ((200 : ℚ) / 200) = 1 := scale_at_natural_size 200 200 (by norm_num) rfl
  have h2 : toDouble ((100 : ℚ) / 100) = 1 := scale_at_natural_size 100 100 (by norm_num) rfl
  have hrange : sourceInRange ⟨200, 100, 200, 100⟩ ⟨.px, 150, 0, 100, 100⟩ := by
    refine ⟨?_, ?_, ?_, ?_, ?_, ?_⟩
    · exact inNormalRange_of_bounds _ (by norm_num) (by norm_num)
    · exact inNormalRange_of_bounds _ (by norm_num) (by norm_num)
    · show inNormalRange (150 * toDouble (200 / 200))
      rw [h1]
      exact inNormalRange_of_bounds _ (by norm_num) (by norm_num)
    · left
      show (0 : ℚ) * toDouble (100 / 100) = 0
      simp
    · show inNormalRange (100 * toDouble (200 / 200))
      rw [h1]
      exact inNormalRange_of_bounds _ (by norm_num) (by norm_num)
    · show inNormalRange (100 * toDouble (100 / 100))
      rw [h2]
      exact inNormalRange_of_bounds _ (by norm_num) (by norm_num)
  refine ⟨hrange, ?_⟩
  apply (source_rectangle_scaled_unclamped ⟨.px, 150, 0, 100, 100⟩ ⟨200, 100, 200, 100⟩ 1
    (by norm_num) (by norm_num) (by norm_num) (by norm_num) hrange).2.2.2.2.2.2.2.1
    (by norm_num) (by norm_num)
  show (200 : ℚ) < (150 + 100) * (1 - unitRoundoff) ^ 2
  unfold unitRoundoff
  norm_num

/-! ### ProjectsManager: the round trip through the form -/

theorem joinChars_ne_nil (a : List Char) (rest : List (List Char)) (ha : a ≠ []) :
    joinChars (a :: rest) ≠ [] := by
  cases rest with
  | nil => simpa [joinChars] using ha
  | cons b r => simp [joinChars, ha]

/-- C30, amended: for every project whose `technologies` is a list of
trimmed, non-empty, comma-free strings that is not empty, loading it into the
form with `handleEdit` and submitting it unchanged with `handleSubmit` sends
exactly the same list; for the empty list the `required` technologies input
stops the submit, so `handleSubmit` does not run and nothing is sent. Whatever
is sent is the list that was loaded. -/
theorem technologies_round_trip (technologies : List String)
    (hgood : ∀ t ∈ technologies, jsTrim t = t ∧ t ≠ "" ∧ ',' ∉ t.data) :
    (∀ (othersFilled : Bool) (sent : List String),
      submitTechnologies othersFilled (handleEditTechnologies technologies) = some sent →
      sent = technologies) ∧
    (technologies ≠ [] →
      submitTechnologies true (handleEditTechnologies technologies) = some technologies) ∧
    (technologies = [] →
      ∀ othersFilled : Bool,
        submitTechnologies othersFilled (handleEditTechnologies technologies) = none) := by
  cases technologies with
  | nil =>
    have hform : handleEditTechnologies [] = "" := by decide
    have hempty : truthy "" = false := by decide
    refine ⟨?_, ?_, ?_⟩
    · intro othersFilled sent hsent
      simp [submitTechnologies, hform, hempty] at hsent
    · intro h
      exact absurd rfl h
    · intro _ othersFilled
      simp [submitTechnologies, hform, hempty]
  | cons a rest =>
    have hround : handleSubmitTechnologies (handleEditTechnologies (a :: rest)) = a :: rest :=
      technologies_round_trip_nonempty (a :: rest) (by simp)
        (fun t ht => ⟨(hgood t ht).1, (hgood t ht).2.2⟩)
    have ha : a.data ≠ [] := by
      intro h
      apply (hgood a (by simp)).2.1
      cases a with
      | mk data => simp at h; subst h; rfl
    have hfilled : truthy (handleEditTechnologies (a :: rest)) = true := by
      unfold truthy
      rw [bne_iff_ne]
      intro h
      have h2 := congrArg String.data h
      simp only [handleEditTechnologies, jsJoinCommaSpace, List.map_cons] at h2
      exact joinChars_ne_nil a.data (rest.map String.data) ha h2
    refine ⟨?_, ?_, ?_⟩
    · intro othersFilled sent hsent
      cases othersFilled with
      | false => simp [submitTechnologies] at hsent
      | true =>
        simp only [submitTechnologies, hfilled, Bool.and_self, if_true, Option.some.injEq,
          hround] at hsent
        exact hsent.symm
    · intro _
      simp [submitTechnologies, hfilled, hround]
    · intro h
      cases h

/-- Witness of C30 (amended): the technologies `React` and `Node.js`. -/
theorem technologies_round_trip_witness :
    (∀ t ∈ ["React", "Node.js"], jsTrim t = t ∧ t ≠ "" ∧ ',' ∉ t.data) ∧
    submitTechnologies true (handleEditTechnologies ["React", "Node.js"])
      = some ["React", "Node.js"] :=
  ⟨by decide,
    (technologies_round_trip ["React", "Node.js"] (by decide)).2.1 (by decide)⟩

end Portfolio
